import Mathlib

/-!
Verification development for the `handshakeos_e` reasoning-capture CLI and the
`evez` database initialization helper.

The interactive program is shallowly embedded as follows:
* standard input is a list of strings (one per `input()` call);
* every `_prompt_*` loop from `handshakeos_e/cli.py` becomes a function
  consuming that list, returning `none` when the stream is exhausted
  (Python would raise `EOFError`);
* the SQLite connection becomes a `Conn` value holding the durable store,
  the pending (uncommitted) store, and an event log recording, in order,
  each completed prompt and each executed INSERT;
* Python floats are modelled as rationals.
-/

attribute [local semireducible] Rat.mul Rat.add Rat.sub Rat.inv

namespace HandshakeE

/-- JSON values as produced by Python `json.loads`.  JSON `true`/`false`
decode to Python booleans, which are kept as a separate constructor here
because `bool` is an `int` subtype in Python (this matters for the
weight-validation logic below).  Numbers are modelled as rationals. -/
inductive Json where
  | null
  | bool (b : Bool)
  | num (q : Rat)
  | str (s : String)
  | arr (elems : List Json)
  | obj (fields : List (String × Json))
deriving Repr, BEq, Inhabited

/-- Skip JSON whitespace. -/
def skipWs : List Char → List Char
  | [] => []
  | c :: rest =>
    if c = ' ' || c = '\t' || c = '\n' || c = '\r' then skipWs rest else c :: rest

def digitsToNat (ds : List Char) : Nat :=
  ds.foldl (fun acc c => acc * 10 + (c.toNat - 48)) 0

/-- Parse the remainder of a JSON string literal (the opening quote has been
consumed), handling the basic escapes used here. -/
def parseJStrChars : List Char → Option (List Char × List Char)
  | [] => none
  | c :: rest =>
    if c = '"' then some ([], rest)
    else if c = '\\' then
      match rest with
      | [] => none
      | e :: rest2 =>
        let ec : Option Char :=
          if e = '"' then some '"'
          else if e = '\\' then some '\\'
          else if e = '/' then some '/'
          else if e = 'n' then some '\n'
          else if e = 't' then some '\t'
          else if e = 'r' then some '\r'
          else none
        match ec with
        | none => none
        | some ch => (parseJStrChars rest2).map (fun p => (ch :: p.1, p.2))
    else (parseJStrChars rest).map (fun p => (c :: p.1, p.2))

/-- Parse a JSON number (sign, integer part, optional fractional part). -/
def parseJNum (cs : List Char) : Option (Rat × List Char) :=
  let sgncs : Bool × List Char :=
    match cs with
    | '-' :: rest => (true, rest)
    | _ => (false, cs)
  let ds := sgncs.2.takeWhile Char.isDigit
  let cs2 := sgncs.2.dropWhile Char.isDigit
  if ds.isEmpty then none
  else
    match cs2 with
    | '.' :: cs3 =>
      let fs := cs3.takeWhile Char.isDigit
      let cs4 := cs3.dropWhile Char.isDigit
      if fs.isEmpty then none
      else
        let q : Rat := (digitsToNat ds : Rat) + (digitsToNat fs : Rat) / ((10 : Rat) ^ fs.length)
        some (if sgncs.1 then -q else q, cs4)
    | _ =>
      let q : Rat := (digitsToNat ds : Rat)
      some (if sgncs.1 then -q else q, cs2)

/-- Check that `lit` is a leading segment of `cs` and drop it. -/
def dropLit : List Char → List Char → Option (List Char)
  | [], cs => some cs
  | l :: ls, c :: cs => if c = l then dropLit ls cs else none
  | _ :: _, [] => none

def lbrace : Char := Char.ofNat 123
def rbrace : Char := Char.ofNat 125

/-- Parsing tasks for the single fuel-indexed JSON parser: a whole value, the
inside of an array or object (just after the opening bracket), or the
continuation after at least one element has been read. -/
inductive JTask where
  | val
  | arrStart
  | arrTail (acc : List Json)
  | objStart
  | objTail (acc : List (String × Json))

inductive JOut where
  | v (j : Json)
  | arr (es : List Json)
  | obj (fs : List (String × Json))

/-- Recursive-descent JSON parser (model of Python `json.loads` restricted to
the constructs exercised by this program: no exponent notation, basic string
escapes).  Structural recursion on an explicit fuel argument. -/
def parseJ : Nat → JTask → List Char → Option (JOut × List Char)
  | 0, _, _ => none
  | Nat.succ fuel, task, cs =>
    match task with
    | .val =>
      let cs' := skipWs cs
      match dropLit ("null".toList) cs' with
      | some r => some (.v .null, r)
      | none =>
      match dropLit ("true".toList) cs' with
      | some r => some (.v (.bool true), r)
      | none =>
      match dropLit ("false".toList) cs' with
      | some r => some (.v (.bool false), r)
      | none =>
      match cs' with
      | [] => none
      | c :: rest =>
        if c = '"' then
          match parseJStrChars rest with
          | none => none
          | some (sc, r) => some (.v (.str (String.mk sc)), r)
        else if c = '[' then
          match parseJ fuel .arrStart rest with
          | some (.arr es, r) => some (.v (.arr es), r)
          | _ => none
        else if c = lbrace then
          match parseJ fuel .objStart rest with
          | some (.obj fs, r) => some (.v (.obj fs), r)
          | _ => none
        else
          match parseJNum cs' with
          | none => none
          | some (q, r) => some (.v (.num q), r)
    | .arrStart =>
      match skipWs cs with
      | ']' :: r => some (.arr [], r)
      | cs' =>
        match parseJ fuel .val cs' with
        | some (.v v, r1) => parseJ fuel (.arrTail [v]) r1
        | _ => none
    | .arrTail acc =>
      match skipWs cs with
      | ']' :: r => some (.arr acc.reverse, r)
      | ',' :: r =>
        match parseJ fuel .val r with
        | some (.v v, r1) => parseJ fuel (.arrTail (v :: acc)) r1
        | _ => none
      | _ => none
    | .objStart =>
      match skipWs cs with
      | c :: r =>
        if c = rbrace then some (.obj [], r)
        else if c = '"' then
          match parseJStrChars r with
          | none => none
          | some (kc, r1) =>
            match skipWs r1 with
            | ':' :: r2 =>
              match parseJ fuel .val r2 with
              | some (.v v, r3) => parseJ fuel (.objTail [(String.mk kc, v)]) r3
              | _ => none
            | _ => none
        else none
      | [] => none
    | .objTail acc =>
      match skipWs cs with
      | c :: r =>
        if c = rbrace then some (.obj acc.reverse, r)
        else if c = ',' then
          match skipWs r with
          | c1 :: r1 =>
            if c1 = '"' then
              match parseJStrChars r1 with
              | none => none
              | some (kc, r2) =>
                match skipWs r2 with
                | ':' :: r3 =>
                  match parseJ fuel .val r3 with
                  | some (.v v, r4) => parseJ fuel (.objTail ((String.mk kc, v) :: acc)) r4
                  | _ => none
                | _ => none
            else none
          | [] => none
        else none
      | [] => none

/-- Model of `json.loads`: parse one value and require only whitespace to
remain. -/
def json_loads (s : String) : Option Json :=
  let cs := s.toList
  match parseJ (2 * cs.length + 4) .val cs with
  | some (.v j, rest) => if (skipWs rest).isEmpty then some j else none
  | _ => none

/-- `dict.get` on a decoded JSON object: Python keeps the last binding when a
key is repeated. -/
def jget (fields : List (String × Json)) (key : String) : Option Json :=
  (fields.reverse.find? (fun kv => kv.1 = key)).map (fun kv => kv.2)

/-! ## Input collector (`_prompt_*` / `_parse_*` in `handshakeos_e/cli.py`)

Each `while True` prompt loop becomes a function on the remaining list of
input lines: an invalid line is dropped (the error message is printed and the
operator re-prompted), and an exhausted list is `none` (closing the input
stream is the only way out of a loop).

The Python string primitives (`str.strip`, `str.lower`, `str.split`,
`int(...)`, `float(...)`) are modelled by structurally recursive functions on
the character list of the string. -/

/-- The ASCII whitespace stripped by Python `str.strip()`. -/
def isPyWs (c : Char) : Bool :=
  c = ' ' || c = '\t' || c = '\n' || c = '\r' || c = '\x0b' || c = '\x0c'

/-- `str.strip()`. -/
def pyStrip (s : String) : String :=
  String.mk (((s.data.dropWhile isPyWs).reverse.dropWhile isPyWs).reverse)

/-- `str.lstrip()`. -/
def pyLStrip (s : String) : String := String.mk (s.data.dropWhile isPyWs)

/-- `str.lower()` (ASCII). -/
def pyLower (s : String) : String := String.mk (s.data.map Char.toLower)

/-- `str.split(sep)` for a single-character separator. -/
def splitChar (sep : Char) : List Char → List (List Char)
  | [] => [[]]
  | c :: rest =>
    let r := splitChar sep rest
    if c = sep then [] :: r
    else
      match r with
      | [] => [[c]]
      | g :: gs => (c :: g) :: gs

/-- A non-empty all-digit character list, as a number. -/
def digitsToNatChecked (ds : List Char) : Option Nat :=
  if ds ≠ [] ∧ ds.all Char.isDigit then some (digitsToNat ds) else none

/-- Model of Python `int(raw)` on an already-stripped string: an optional
sign followed by digits. -/
def pyInt (raw : String) : Option Int :=
  match raw.data with
  | '-' :: ds => (digitsToNatChecked ds).map (fun n => -(n : Int))
  | '+' :: ds => (digitsToNatChecked ds).map (fun n => (n : Int))
  | ds => (digitsToNatChecked ds).map (fun n => (n : Int))

/-- One `(domain, weight)` pair of a mixture vector, after validation:
`cleaned.append({"domain": domain, "weight": float(weight)})`. -/
structure MixEntry where
  domain : String
  weight : Rat
deriving Repr, BEq

abbrev MixVec := List MixEntry

/-- `_prompt_text`: strip the line, accept it when non-empty (or when empty
input is allowed), otherwise re-prompt. -/
def prompt_text (allow_empty : Bool) : List String → Option (String × List String)
  | [] => none
  | raw :: rest =>
    let value := pyStrip raw
    if value ≠ "" ∨ allow_empty then some (value, rest)
    else prompt_text allow_empty rest

/-- `_prompt_choice`: strip and lowercase the line, accept it when it is one
of the options. -/
def prompt_choice (options : List String) : List String → Option (String × List String)
  | [] => none
  | raw :: rest =>
    let value := pyLower (pyStrip raw)
    if value ∈ options then some (value, rest)
    else prompt_choice options rest

/-- `_prompt_int`: parse an integer, accept it when within bounds. -/
def prompt_int (min_value max_value : Int) : List String → Option (Int × List String)
  | [] => none
  | raw :: rest =>
    match pyInt (pyStrip raw) with
    | none => prompt_int min_value max_value rest
    | some v =>
      if min_value ≤ v ∧ v ≤ max_value then some (v, rest)
      else prompt_int min_value max_value rest

/-- Model of Python `float(raw)` on an already-stripped string, restricted to
plain decimal notation (optional sign, digits, optional fractional part);
the exotic accepted spellings (`inf`, `nan`, exponents, underscores) are not
needed by this program's workflow. -/
def pyFloat (raw : String) : Option Rat :=
  let sgnbody : Rat × List Char :=
    match raw.data with
    | '-' :: rest => (-1, rest)
    | '+' :: rest => (1, rest)
    | cs => (1, cs)
  match splitChar '.' sgnbody.2 with
  | [ip] =>
    if ip ≠ [] ∧ ip.all Char.isDigit then some (sgnbody.1 * (digitsToNat ip : Rat))
    else none
  | [ip, fp] =>
    if (ip ≠ [] ∨ fp ≠ []) ∧ ip.all Char.isDigit ∧ fp.all Char.isDigit then
      some (sgnbody.1 *
        ((digitsToNat ip : Rat) + (digitsToNat fp : Rat) / (10 : Rat) ^ fp.length))
    else none
  | _ => none

/-- `_prompt_float`: parse a float, accept it when within bounds. -/
def prompt_float (min_value max_value : Rat) : List String → Option (Rat × List String)
  | [] => none
  | raw :: rest =>
    match pyFloat (pyStrip raw) with
    | none => prompt_float min_value max_value rest
    | some v =>
      if min_value ≤ v ∧ v ≤ max_value then some (v, rest)
      else prompt_float min_value max_value rest

/-- Validation of one mixture entry, from the loop body of
`_parse_mixture_vector`: the entry must be a JSON object with a non-empty
string `domain` and a numeric `weight`.  A JSON boolean passes the weight
check because Python `bool` is an `int` subtype
(`isinstance(weight, (int, float))`), and `float(True) = 1.0`,
`float(False) = 0.0`. -/
def parseMixEntry : Json → Except String MixEntry
  | .obj fields =>
    match jget fields "domain" with
    | some (.str d) =>
      if d = "" then .error "Each mixture entry needs a non-empty domain string."
      else
        match jget fields "weight" with
        | some (.num q) => .ok { domain := d, weight := q }
        | some (.bool b) => .ok { domain := d, weight := if b then 1 else 0 }
        | _ => .error "Each mixture entry needs a numeric weight."
    | _ => .error "Each mixture entry needs a non-empty domain string."
  | _ => .error "Each mixture entry must be an object."

def parseMixEntries : List Json → Except String MixVec
  | [] => .ok []
  | e :: rest => do
    let m ← parseMixEntry e
    let ms ← parseMixEntries rest
    pure (m :: ms)

/-- `_parse_mixture_vector`: empty input is the empty vector; otherwise the
input must decode to a JSON list whose entries all validate. -/
def parse_mixture_vector (raw : String) : Except String MixVec :=
  if raw = "" then .ok []
  else
    match json_loads raw with
    | none => .error "Mixture vector must be JSON (list of objects)."
    | some (.arr entries) => parseMixEntries entries
    | some _ => .error "Mixture vector must be a JSON list."

/-- `_prompt_mixture_vector`: re-prompt until `_parse_mixture_vector`
succeeds; the `ValueError` is caught and printed, never propagated. -/
def prompt_mixture_vector : List String → Option (MixVec × List String)
  | [] => none
  | raw :: rest =>
    match parse_mixture_vector (pyStrip raw) with
    | .ok v => some (v, rest)
    | .error _ => prompt_mixture_vector rest

def jsonStrings : List Json → Option (List String)
  | [] => some []
  | .str s :: rest => (jsonStrings rest).map (fun ss => s :: ss)
  | _ => none

/-- `_parse_evidence_refs`: empty input is the empty list; input starting
with `[` must be a JSON list of strings (each trimmed, empties dropped);
anything else is split on commas (each token trimmed, empties dropped). -/
def parse_evidence_refs (raw : String) : Except String (List String) :=
  if raw = "" then .ok []
  else if (pyLStrip raw).data.head? = some '[' then
    match json_loads raw with
    | none => .error "Evidence refs must be JSON list or comma-separated."
    | some (.arr items) =>
      match jsonStrings items with
      | some ss => .ok ((ss.map pyStrip).filter (fun s => s ≠ ""))
      | none => .error "Evidence refs JSON must be a list of strings."
    | some _ => .error "Evidence refs JSON must be a list of strings."
  else .ok (((splitChar ',' raw.data).map (fun g => pyStrip (String.mk g))).filter (fun s => s ≠ ""))

/-- `_prompt_evidence_refs`: re-prompt until `_parse_evidence_refs`
succeeds. -/
def prompt_evidence_refs : List String → Option (List String × List String)
  | [] => none
  | raw :: rest =>
    match parse_evidence_refs (pyStrip raw) with
    | .ok v => some (v, rest)
    | .error _ => prompt_evidence_refs rest

/-! ## Data model: the six tables of `_ensure_schema` -/

structure IntentRow where
  id : Nat
  goal : String
  constraints : String
  success_signal : String
  confidence : Rat
deriving Repr, BEq

structure ObservationRow where
  id : Nat
  intent_id : Nat
  description : String
  domain_signature : MixVec
deriving Repr, BEq

structure HypothesisRow where
  id : Nat
  observation_id : Nat
  model_type : String
  probability : Rat
  falsifiers : String
  domain_signature : MixVec
deriving Repr, BEq

structure TestRow where
  id : Nat
  hypothesis_id : Nat
  description : String
  result : String
  evidence : String
deriving Repr, BEq

structure OutcomeRow where
  id : Nat
  observation_id : Nat
  hypothesis_id : Nat
  summary : String
  evidence_refs : List String
deriving Repr, BEq

structure PatternSeedRow where
  id : Nat
  outcome_id : Nat
  trigger : String
  invariant : String
  counterexample : String
  best_response : String
  domain_signature : MixVec
  evidence_refs : List String
deriving Repr, BEq

/-- The relational store: the six append-only tables.  Rows are only ever
appended, so `AUTOINCREMENT` allocates `length + 1` as the next rowid. -/
structure Store where
  intents : List IntentRow
  observations : List ObservationRow
  hypotheses : List HypothesisRow
  tests : List TestRow
  outcomes : List OutcomeRow
  pattern_seeds : List PatternSeedRow
deriving Repr, BEq

def emptyStore : Store := ⟨[], [], [], [], [], []⟩

/-- The in-memory record from the `HypothesisInput` dataclass, which the
`capture` function accumulates before inserting. -/
structure HypothesisInput where
  model_type : String
  probability : Rat
  falsifiers : String
  domain_signature : MixVec
deriving Repr, BEq

/-- Observable events of a session, in program order: `read l` is a
completed prompt for label `l`; `ins t i` is an executed `INSERT` into table
`t` returning rowid `i`. -/
inductive Ev where
  | read (label : String)
  | ins (table : String) (id : Nat)
deriving Repr, DecidableEq

/-- The SQLite connection: `durable` is what the file holds (what any later
session would see), `pending` is the state of the open transaction.
`conn.commit()` publishes `pending`; `conn.close()` without a commit rolls
the transaction back, leaving `durable`. -/
structure Conn where
  durable : Store
  pending : Store
  log : List Ev
deriving Repr, BEq

/-- The store a subsequent session sees after `conn.close()`: the committed
state only. -/
def closeVisible (c : Conn) : Store := c.durable

/-! ### Row insertion (`conn.execute("INSERT ...")` + `cursor.lastrowid`) -/

def Store.insIntent (s : Store) (goal constraints success_signal : String)
    (confidence : Rat) : Store × Nat :=
  let id := s.intents.length + 1
  ({ s with intents := s.intents ++ [⟨id, goal, constraints, success_signal, confidence⟩] }, id)

def Store.insObservation (s : Store) (intent_id : Nat) (description : String)
    (domain_signature : MixVec) : Store × Nat :=
  let id := s.observations.length + 1
  ({ s with observations :=
      s.observations ++ [⟨id, intent_id, description, domain_signature⟩] }, id)

def Store.insHypothesis (s : Store) (observation_id : Nat) (h : HypothesisInput) :
    Store × Nat :=
  let id := s.hypotheses.length + 1
  ({ s with hypotheses := s.hypotheses ++
      [⟨id, observation_id, h.model_type, h.probability, h.falsifiers, h.domain_signature⟩] }, id)

def Store.insTest (s : Store) (hypothesis_id : Nat) (description result evidence : String) :
    Store × Nat :=
  let id := s.tests.length + 1
  ({ s with tests := s.tests ++ [⟨id, hypothesis_id, description, result, evidence⟩] }, id)

def Store.insOutcome (s : Store) (observation_id hypothesis_id : Nat) (summary : String)
    (evidence_refs : List String) : Store × Nat :=
  let id := s.outcomes.length + 1
  ({ s with outcomes := s.outcomes ++
      [⟨id, observation_id, hypothesis_id, summary, evidence_refs⟩] }, id)

def Store.insPatternSeed (s : Store) (outcome_id : Nat)
    (trigger invariant counterexample best_response : String)
    (domain_signature : MixVec) (evidence_refs : List String) : Store × Nat :=
  let id := s.pattern_seeds.length + 1
  ({ s with pattern_seeds := s.pattern_seeds ++
      [⟨id, outcome_id, trigger, invariant, counterexample, best_response,
        domain_signature, evidence_refs⟩] }, id)

/-! ### Session combinators

A session step consumes input lines and transforms the connection.  On
failure (input stream closed mid-prompt) the connection reached so far is
kept, so that what a crash leaves behind can be stated. -/

def M (α : Type) : Type := Conn → List String → Conn × Option (α × List String)

/-- Sequencing: run `m`; on failure stop with its connection, otherwise
continue with `f`. -/
def mseq {α β : Type} (m : M α) (f : α → M β) : M β := fun c inp =>
  match m c inp with
  | (c1, none) => (c1, none)
  | (c1, some (a, rest)) => f a c1 rest

/-- A prompt: runs the collector on the input lines and records one `read`
event on success. -/
def mprompt {α : Type} (label : String) (p : List String → Option (α × List String)) :
    M α := fun c inp =>
  match p inp with
  | none => (c, none)
  | some (a, rest) => ({ c with log := c.log ++ [Ev.read label] }, some (a, rest))

/-- An INSERT: acts on the pending (uncommitted) store and records one `ins`
event; never touches the durable store. -/
def minsert (table : String) (f : Store → Store × Nat) : M Nat := fun c inp =>
  let p := f c.pending
  ({ c with pending := p.1, log := c.log ++ [Ev.ins table p.2] }, some (p.2, inp))

def mret {α : Type} (a : α) : M α := fun c inp => (c, some (a, inp))

/-- `conn.commit()`: publish the pending transaction. -/
def mcommit : M Unit := fun c inp => ({ c with durable := c.pending }, some ((), inp))

/-! ### The seven-stage capture pipeline (`capture` in `handshakeos_e/cli.py`) -/

def stage_intent : M Nat :=
  mseq (mprompt "Intent goal" (prompt_text false)) fun goal =>
  mseq (mprompt "Intent constraints" (prompt_text false)) fun constraints =>
  mseq (mprompt "Intent success signal" (prompt_text false)) fun success_signal =>
  mseq (mprompt "Intent confidence" (prompt_float 0 1)) fun confidence =>
  minsert "intents" (fun s => s.insIntent goal constraints success_signal confidence)

def stage_observation (intent_id : Nat) : M Nat :=
  mseq (mprompt "Observation description" (prompt_text false)) fun desc =>
  mseq (mprompt "Observation domain signature mixture" prompt_mixture_vector) fun mv =>
  minsert "observations" (fun s => s.insObservation intent_id desc mv)

/-- The body of the `for index in range(1, hypothesis_count + 1)` loop:
collect the four fields of hypothesis number `idx` (no insertion happens
here). -/
def collect_hypothesis (idx : Nat) : M HypothesisInput :=
  mseq (mprompt ("Hypothesis " ++ toString idx ++ " model type")
      (prompt_choice ["me", "we", "they", "system"])) fun model_type =>
  mseq (mprompt ("Hypothesis " ++ toString idx ++ " probability")
      (prompt_float 0 1)) fun probability =>
  mseq (mprompt ("Hypothesis " ++ toString idx ++ " falsifiers")
      (prompt_text false)) fun falsifiers =>
  mseq (mprompt ("Hypothesis " ++ toString idx ++ " domain signature mixture")
      prompt_mixture_vector) fun domain_signature =>
  mret ⟨model_type, probability, falsifiers, domain_signature⟩

/-- Collect hypotheses number `idx, idx+1, ...` (`n` of them). -/
def collect_hypotheses : Nat → Nat → M (List HypothesisInput)
  | _, 0 => mret []
  | idx, Nat.succ n =>
    mseq (collect_hypothesis idx) fun h =>
    mseq (collect_hypotheses (idx + 1) n) fun hs =>
    mret (h :: hs)

/-- The second loop of stage 3: insert every collected hypothesis, in order,
recording the allocated rowids. -/
def insert_hypotheses (observation_id : Nat) : List HypothesisInput → M (List Nat)
  | [] => mret []
  | h :: hs =>
    mseq (minsert "hypotheses" (fun s => s.insHypothesis observation_id h)) fun hid =>
    mseq (insert_hypotheses observation_id hs) fun hids =>
    mret (hid :: hids)

def stage_hypotheses (observation_id : Nat) : M (List Nat) :=
  mseq (mprompt "Number of hypotheses" (prompt_int 3 7)) fun n =>
  mseq (collect_hypotheses 1 n.toNat) fun hins =>
  insert_hypotheses observation_id hins

/-- Stage 4: select a hypothesis by 1-based index and record the test.
Returns the chosen hypothesis rowid together with the test rowid. -/
def stage_test (hypothesis_ids : List Nat) : M (Nat × Nat) :=
  mseq (mprompt "Choose hypothesis to test (index)"
      (prompt_int 1 (hypothesis_ids.length : Int))) fun k =>
  mseq (mprompt "Test description" (prompt_text false)) fun desc =>
  mseq (mprompt "Test result" (prompt_text false)) fun result =>
  mseq (mprompt "Test evidence" (prompt_text false)) fun evidence =>
  mseq (minsert "tests"
      (fun s => s.insTest (hypothesis_ids.getD (k.toNat - 1) 0) desc result evidence)) fun test_id =>
  mret (hypothesis_ids.getD (k.toNat - 1) 0, test_id)

def test_ref_tok (test_id : Nat) : String := "test:" ++ toString test_id

/-- `if test_ref not in outcome_refs: outcome_refs.append(test_ref)`. -/
def ensure_test_ref (test_id : Nat) (refs : List String) : List String :=
  if test_ref_tok test_id ∈ refs then refs else refs ++ [test_ref_tok test_id]

def stage_outcome (observation_id hyp_id test_id : Nat) : M Nat :=
  mseq (mprompt "Outcome summary" (prompt_text false)) fun summary =>
  mseq (mprompt "Outcome evidence refs" prompt_evidence_refs) fun refs =>
  minsert "outcomes"
    (fun s => s.insOutcome observation_id hyp_id summary (ensure_test_ref test_id refs))

def stage_pattern_seed (outcome_id : Nat) : M Unit :=
  mseq (mprompt "Pattern trigger" (prompt_text false)) fun trigger =>
  mseq (mprompt "Pattern invariant" (prompt_text false)) fun inv =>
  mseq (mprompt "Pattern counterexample" (prompt_text false)) fun cex =>
  mseq (mprompt "Pattern best response" (prompt_text false)) fun br =>
  mseq (mprompt "Pattern domain signature mixture" prompt_mixture_vector) fun mv =>
  mseq (mprompt "Pattern evidence refs" prompt_evidence_refs) fun refs =>
  mseq (minsert "pattern_seeds"
      (fun s => s.insPatternSeed outcome_id trigger inv cex br mv refs)) fun _ =>
  mret ()

/-- The identifiers `capture` returns to its caller. -/
structure CaptureResult where
  intent_id : Nat
  observation_id : Nat
  hypothesis_ids : List Nat
  test_id : Nat
  outcome_id : Nat
deriving Repr, BEq

/-- The whole session: the six insert stages in order, then the single
`conn.commit()`. -/
def capture_session : M CaptureResult :=
  mseq stage_intent fun intent_id =>
  mseq (stage_observation intent_id) fun observation_id =>
  mseq (stage_hypotheses observation_id) fun hids =>
  mseq (stage_test hids) fun tt =>
  mseq (stage_outcome observation_id tt.1 tt.2) fun outcome_id =>
  mseq (stage_pattern_seed outcome_id) fun _ =>
  mseq mcommit fun _ =>
  mret { intent_id := intent_id, observation_id := observation_id,
         hypothesis_ids := hids, test_id := tt.2, outcome_id := outcome_id }

/-- `capture(db_path)`: open a connection on the stored state `s0` (pending
starts as a copy of the durable state) and run the session on the given
input lines.  The first component is the connection at exit (about to be
closed); the second is `some` of the returned identifier record and the
unconsumed input on success, `none` when the input stream closed first. -/
def capture (s0 : Store) (inp : List String) :
    Conn × Option (CaptureResult × List String) :=
  capture_session { durable := s0, pending := s0, log := [] } inp

/-! ### Observables used in the statements -/

/-- The four field prompts of hypothesis number `idx`, as log events. -/
def hypFieldReads (idx : Nat) : List Ev :=
  [Ev.read ("Hypothesis " ++ toString idx ++ " model type"),
   Ev.read ("Hypothesis " ++ toString idx ++ " probability"),
   Ev.read ("Hypothesis " ++ toString idx ++ " falsifiers"),
   Ev.read ("Hypothesis " ++ toString idx ++ " domain signature mixture")]

/-- The field prompts of hypotheses `idx, idx+1, ...` (`n` of them). -/
def hypReadsFrom : Nat → Nat → List Ev
  | _, 0 => []
  | idx, Nat.succ n => hypFieldReads idx ++ hypReadsFrom (idx + 1) n

/-- The rows inserted for collected hypothesis inputs, ids allocated
consecutively from `startId`. -/
def hypRows (observation_id startId : Nat) : List HypothesisInput → List HypothesisRow
  | [] => []
  | h :: hs =>
    ⟨startId, observation_id, h.model_type, h.probability, h.falsifiers, h.domain_signature⟩ ::
      hypRows observation_id (startId + 1) hs

/-- The INSERT events of a log, in order. -/
def insEvents (log : List Ev) : List (String × Nat) :=
  log.filterMap (fun e =>
    match e with
    | .ins t i => some (t, i)
    | .read _ => none)

/-- `hypothesis_ids[test_hypothesis_index - 1]` for a 1-based index `k`. -/
def chosenHyp (hypothesis_ids : List Nat) (k : Int) : Nat :=
  hypothesis_ids.getD (k.toNat - 1) 0

/-! ### A concrete session used to witness the theorems -/

def intentLines : List String := ["g", "c", "s", "0"]
def obsLines : List String := ["d", ""]
def hypLines : List String :=
  ["3", "me", "0", "f", "", "we", "1", "f", "", "system", "1", "f", ""]
def testLines : List String := ["1", "td", "tr", "te"]
def outcomeLines : List String := ["os", ""]
def seedLines : List String := ["pt", "pi", "pc", "pb", "", ""]

/-- A complete operator transcript: intent, observation, three hypotheses,
test of hypothesis 1, outcome (no operator evidence refs), pattern seed. -/
def sampleInput : List String :=
  intentLines ++ (obsLines ++ (hypLines ++ (testLines ++ (outcomeLines ++ seedLines))))

def sampleRes : CaptureResult :=
  { intent_id := 1, observation_id := 1, hypothesis_ids := [1, 2, 3],
    test_id := 1, outcome_id := 1 }

def sampleC0 : Conn := ⟨emptyStore, emptyStore, []⟩

def sampleC1 : Conn :=
  { durable := emptyStore,
    pending := { emptyStore with intents := [⟨1, "g", "c", "s", 0⟩] },
    log := [Ev.read "Intent goal", Ev.read "Intent constraints",
            Ev.read "Intent success signal", Ev.read "Intent confidence",
            Ev.ins "intents" 1] }

def sampleC2 : Conn :=
  { sampleC1 with
    pending := { sampleC1.pending with observations := [⟨1, 1, "d", []⟩] },
    log := sampleC1.log ++
      [Ev.read "Observation description",
       Ev.read "Observation domain signature mixture", Ev.ins "observations" 1] }

/-- Connection states inside stage 3 of the sample session: after the count
prompt, then after each hypothesis's four field prompts. -/
def sampleC2a : Conn := { sampleC2 with log := sampleC2.log ++ [Ev.read "Number of hypotheses"] }
def sampleC2b : Conn := { sampleC2a with log := sampleC2a.log ++ hypFieldReads 1 }
def sampleC2c : Conn := { sampleC2b with log := sampleC2b.log ++ hypFieldReads 2 }
def sampleC2d : Conn := { sampleC2c with log := sampleC2c.log ++ hypFieldReads 3 }

def sampleHin1 : HypothesisInput := ⟨"me", 0, "f", []⟩
def sampleHin2 : HypothesisInput := ⟨"we", 1, "f", []⟩
def sampleHin3 : HypothesisInput := ⟨"system", 1, "f", []⟩

def sampleC3 : Conn :=
  { sampleC2 with
    pending := { sampleC2.pending with hypotheses :=
      [⟨1, 1, "me", 0, "f", []⟩, ⟨2, 1, "we", 1, "f", []⟩, ⟨3, 1, "system", 1, "f", []⟩] },
    log := sampleC2.log ++
      ([Ev.read "Number of hypotheses"] ++
        (hypFieldReads 1 ++ (hypFieldReads 2 ++ (hypFieldReads 3 ++
          [Ev.ins "hypotheses" 1, Ev.ins "hypotheses" 2, Ev.ins "hypotheses" 3])))) }

def sampleC4 : Conn :=
  { sampleC3 with
    pending := { sampleC3.pending with tests := [⟨1, 1, "td", "tr", "te"⟩] },
    log := sampleC3.log ++
      [Ev.read "Choose hypothesis to test (index)", Ev.read "Test description",
       Ev.read "Test result", Ev.read "Test evidence", Ev.ins "tests" 1] }

def sampleC5 : Conn :=
  { sampleC4 with
    pending := { sampleC4.pending with outcomes := [⟨1, 1, 1, "os", ["test:1"]⟩] },
    log := sampleC4.log ++
      [Ev.read "Outcome summary", Ev.read "Outcome evidence refs", Ev.ins "outcomes" 1] }

def sampleC6 : Conn :=
  { sampleC5 with
    pending := { sampleC5.pending with pattern_seeds := [⟨1, 1, "pt", "pi", "pc", "pb", [], []⟩] },
    log := sampleC5.log ++
      [Ev.read "Pattern trigger", Ev.read "Pattern invariant",
       Ev.read "Pattern counterexample", Ev.read "Pattern best response",
       Ev.read "Pattern domain signature mixture", Ev.read "Pattern evidence refs",
       Ev.ins "pattern_seeds" 1] }

/-- The connection at the end of the sample session (after the commit). -/
def sampleConn : Conn := { sampleC6 with durable := sampleC6.pending }

/-! ## Schema setup at the DDL level (`_ensure_schema`)

`_ensure_schema` runs one `CREATE TABLE IF NOT EXISTS` per entity.  Modelled
on a database whose tables carry a name and an opaque row payload, so that
"no data loss" is expressible. -/

structure TableState where
  name : String
  rows : List String
deriving Repr, BEq

structure SchemaDB where
  tables : List TableState
deriving Repr, BEq

/-- `CREATE TABLE IF NOT EXISTS n (...)`: a no-op when a table named `n`
exists, otherwise appends a fresh empty table. -/
def createTableIfNotExists (db : SchemaDB) (n : String) : SchemaDB :=
  if db.tables.any (fun t => t.name = n) then db
  else { tables := db.tables ++ [{ name := n, rows := [] }] }

def handshakeTableNames : List String :=
  ["intents", "observations", "hypotheses", "tests", "outcomes", "pattern_seeds"]

/-- `_ensure_schema`: the `executescript` of the six `CREATE TABLE IF NOT
EXISTS` statements. -/
def ensure_schema (db : SchemaDB) : SchemaDB :=
  handshakeTableNames.foldl createTableIfNotExists db

end HandshakeE

namespace EvezCore

/-! ## `evez/db.py` and `evez/schema.py`

Modelled state: whether the `schema_version` table exists, its rows, and the
names of the created tables and indexes. -/

def SCHEMA_VERSION : Int := 1

structure EvezDB where
  hasSchemaVersionTable : Bool
  versionRows : List Int
  tables : List String
  indexes : List String
deriving Repr, BEq

/-- `_ensure_schema_table`: `CREATE TABLE IF NOT EXISTS schema_version ...`. -/
def ensureSchemaTable (db : EvezDB) : EvezDB :=
  if db.hasSchemaVersionTable then db else { db with hasSchemaVersionTable := true }

/-- `SELECT version FROM schema_version ORDER BY version DESC LIMIT 1`,
defaulting to 0 on an empty table. -/
def topVersion : List Int → Int
  | [] => 0
  | v :: vs => vs.foldl max v

/-- `get_schema_version`: ensure the version table, then read the highest
recorded version. -/
def get_schema_version (db : EvezDB) : EvezDB × Int :=
  let db1 := ensureSchemaTable db
  (db1, topVersion db1.versionRows)

/-- `set_schema_version`: `DELETE FROM schema_version` then insert the one
row. -/
def set_schema_version (db : EvezDB) (version : Int) : EvezDB :=
  { db with versionRows := [version] }

def addIfAbsent (xs : List String) (x : String) : List String :=
  if x ∈ xs then xs else xs ++ [x]

/-- Applying `schema_statements()`: create the `schema_version` table, the
`observations` table and the two indexes, each `IF NOT EXISTS`. -/
def applySchemaStatements (db : EvezDB) : EvezDB :=
  let db1 := ensureSchemaTable db
  let db2 := { db1 with tables := addIfAbsent db1.tables "observations" }
  let ix := addIfAbsent (addIfAbsent db2.indexes "idx_observations_timestamp") "idx_observations_location"
  { db2 with indexes := ix }

/-- `migration_statements(from, to)` applied to the database: only the
`0 → 1` path exists; any other step raises `ValueError`. -/
def applyMigration (fromV toV : Int) (db : EvezDB) : Except String EvezDB :=
  if fromV = 0 ∧ toV = 1 then .ok (applySchemaStatements db)
  else .error "Unsupported migration path"

/-- The `while current < to_version` loop of `migrate`, with the number of
remaining steps as fuel (`to_version - current`, each iteration advances by
one). -/
def migrateLoop : Nat → Int → EvezDB → Except String EvezDB
  | 0, _, db => .ok db
  | Nat.succ n, current, db =>
    match applyMigration current (current + 1) db with
    | .error e => .error e
    | .ok db1 => migrateLoop n (current + 1) (set_schema_version db1 (current + 1))

def migrate (db : EvezDB) (fromV toV : Int) : Except String EvezDB :=
  migrateLoop (toV - fromV).toNat fromV db

/-- `initialize_db`: read the recorded version; fail when it is newer than
`SCHEMA_VERSION`; migrate when it is older; report the supported version. -/
def initialize_db (db : EvezDB) : Except String (EvezDB × Int) :=
  let step := get_schema_version db
  if step.2 > SCHEMA_VERSION then
    .error "Database version newer than supported"
  else if step.2 < SCHEMA_VERSION then
    match migrate step.1 step.2 SCHEMA_VERSION with
    | .error e => .error e
    | .ok db2 => .ok (db2, SCHEMA_VERSION)
  else .ok (step.1, SCHEMA_VERSION)

/-- `run_init` as invoked through `evez/cli.py`: on success the context
manager commits and the process exits 0; on a raised error the transaction
is rolled back (only the autocommitted `CREATE TABLE IF NOT EXISTS` of
`get_schema_version` remains) and the top-level handler calls
`sys.exit(1)`. -/
def run_init (db : EvezDB) : EvezDB × Nat :=
  match initialize_db db with
  | .ok (db1, _) => (db1, 0)
  | .error _ => (ensureSchemaTable db, 1)

end EvezCore

/-! # Theorems -/

namespace HandshakeE

/-! ## Generic facts about the session combinators -/

theorem mseq_some {α β : Type} {m : M α} {c c1 : Conn} {inp r : List String} {a : α}
    (f : α → M β) (h : m c inp = (c1, some (a, r))) :
    mseq m f c inp = f a c1 r := by
  unfold mseq
  rw [h]

theorem mseq_eq_some {α β : Type} {m : M α} {f : α → M β} {c c2 : Conn}
    {inp r2 : List String} {b : β}
    (h : mseq m f c inp = (c2, some (b, r2))) :
    ∃ a c1 r1, m c inp = (c1, some (a, r1)) ∧ f a c1 r1 = (c2, some (b, r2)) := by
  unfold mseq at h
  split at h
  · simp at h
  · next cx a r1 heq => exact ⟨a, cx, r1, heq, h⟩

theorem mseq_eq_none {α β : Type} {m : M α} {f : α → M β} {c c2 : Conn}
    {inp : List String}
    (h : mseq m f c inp = (c2, none)) :
    m c inp = (c2, none) ∨
      ∃ a c1 r1, m c inp = (c1, some (a, r1)) ∧ f a c1 r1 = (c2, none) := by
  unfold mseq at h
  split at h
  · next cx heq =>
      left
      obtain ⟨h1, -⟩ := Prod.mk.injEq .. ▸ h
      rw [heq, h1]
  · next cx a r1 heq =>
      right
      exact ⟨a, cx, r1, heq, h⟩

theorem mprompt_eq_some {α : Type} {label : String}
    {p : List String → Option (α × List String)} {c c1 : Conn}
    {inp r : List String} {a : α}
    (h : mprompt label p c inp = (c1, some (a, r))) :
    p inp = some (a, r) ∧ c1 = { c with log := c.log ++ [Ev.read label] } := by
  unfold mprompt at h
  split at h
  · simp at h
  · next ax rx heq =>
      simp only [Prod.mk.injEq, Option.some.injEq] at h
      obtain ⟨h1, h2, h3⟩ := h
      subst h2
      subst h3
      exact ⟨heq, h1.symm⟩

theorem mprompt_eq_none {α : Type} {label : String}
    {p : List String → Option (α × List String)} {c c1 : Conn} {inp : List String}
    (h : mprompt label p c inp = (c1, none)) :
    p inp = none ∧ c1 = c := by
  unfold mprompt at h
  split at h
  · next heq =>
      simp only [Prod.mk.injEq] at h
      exact ⟨heq, h.1.symm⟩
  · simp at h

theorem minsert_eq (table : String) (f : Store → Store × Nat) (c : Conn)
    (inp : List String) :
    minsert table f c inp =
      ({ c with pending := (f c.pending).1, log := c.log ++ [Ev.ins table (f c.pending).2] },
        some ((f c.pending).2, inp)) := rfl

theorem mret_eq {α : Type} (a : α) (c : Conn) (inp : List String) :
    mret a c inp = (c, some (a, inp)) := rfl

theorem mcommit_eq (c : Conn) (inp : List String) :
    mcommit c inp = ({ c with durable := c.pending }, some ((), inp)) := rfl

end HandshakeE

namespace HandshakeE

/-! ## The durable store is untouched before the final commit -/

/-- A session step that never writes the durable store (everything except
`mcommit`). -/
def DurPres {α : Type} (m : M α) : Prop :=
  ∀ c inp, ((m c inp).1).durable = c.durable

theorem durPres_mseq {α β : Type} {m : M α} {f : α → M β}
    (hm : DurPres m) (hf : ∀ a, DurPres (f a)) : DurPres (mseq m f) := by
  intro c inp
  unfold mseq
  split
  · next cx heq =>
      have := hm c inp
      rw [heq] at this
      exact this
  · next cx a r1 heq =>
      have h1 := hm c inp
      rw [heq] at h1
      have h2 := hf a cx r1
      exact h2.trans h1

theorem durPres_mprompt {α : Type} (label : String)
    (p : List String → Option (α × List String)) : DurPres (mprompt label p) := by
  intro c inp
  unfold mprompt
  split <;> rfl

theorem durPres_minsert (table : String) (f : Store → Store × Nat) :
    DurPres (minsert table f) := by
  intro c inp
  rfl

theorem durPres_mret {α : Type} (a : α) : DurPres (mret a) := fun _ _ => rfl

theorem durPres_stage_intent : DurPres stage_intent := by
  unfold stage_intent
  repeat'
    first
    | exact durPres_mprompt _ _
    | exact durPres_minsert _ _
    | exact durPres_mret _
    | apply durPres_mseq
    | intro a

theorem durPres_stage_observation (intent_id : Nat) :
    DurPres (stage_observation intent_id) := by
  unfold stage_observation
  repeat'
    first
    | exact durPres_mprompt _ _
    | exact durPres_minsert _ _
    | exact durPres_mret _
    | apply durPres_mseq
    | intro a

theorem durPres_collect_hypothesis (idx : Nat) : DurPres (collect_hypothesis idx) := by
  unfold collect_hypothesis
  repeat'
    first
    | exact durPres_mprompt _ _
    | exact durPres_minsert _ _
    | exact durPres_mret _
    | apply durPres_mseq
    | intro a

theorem durPres_collect_hypotheses (idx n : Nat) :
    DurPres (collect_hypotheses idx n) := by
  induction n generalizing idx with
  | zero => exact durPres_mret _
  | succ k ih =>
      unfold collect_hypotheses
      apply durPres_mseq (durPres_collect_hypothesis idx)
      intro h
      apply durPres_mseq (ih (idx + 1))
      intro hs
      exact durPres_mret _

theorem durPres_insert_hypotheses (observation_id : Nat) (hs : List HypothesisInput) :
    DurPres (insert_hypotheses observation_id hs) := by
  induction hs with
  | nil => exact durPres_mret _
  | cons h t ih =>
      unfold insert_hypotheses
      apply durPres_mseq (durPres_minsert _ _)
      intro hid
      apply durPres_mseq ih
      intro hids
      exact durPres_mret _

theorem durPres_stage_hypotheses (observation_id : Nat) :
    DurPres (stage_hypotheses observation_id) := by
  unfold stage_hypotheses
  apply durPres_mseq (durPres_mprompt _ _)
  intro n
  apply durPres_mseq (durPres_collect_hypotheses 1 n.toNat)
  intro hins
  exact durPres_insert_hypotheses observation_id hins

theorem durPres_stage_test (hypothesis_ids : List Nat) :
    DurPres (stage_test hypothesis_ids) := by
  unfold stage_test
  repeat'
    first
    | exact durPres_mprompt _ _
    | exact durPres_minsert _ _
    | exact durPres_mret _
    | apply durPres_mseq
    | intro a

theorem durPres_stage_outcome (observation_id hyp_id test_id : Nat) :
    DurPres (stage_outcome observation_id hyp_id test_id) := by
  unfold stage_outcome
  repeat'
    first
    | exact durPres_mprompt _ _
    | exact durPres_minsert _ _
    | exact durPres_mret _
    | apply durPres_mseq
    | intro a

theorem durPres_stage_pattern_seed (outcome_id : Nat) :
    DurPres (stage_pattern_seed outcome_id) := by
  unfold stage_pattern_seed
  repeat'
    first
    | exact durPres_mprompt _ _
    | exact durPres_minsert _ _
    | exact durPres_mret _
    | apply durPres_mseq
    | intro a

/-- The tail of the session after the last insert stage cannot fail: the
commit and the returned record always succeed. -/
theorem commit_tail_ne_none {x : CaptureResult} {c c2 : Conn} {inp : List String}
    (h : mseq mcommit (fun _ => mret x) c inp = (c2, none)) : False := by
  rcases mseq_eq_none h with h1 | ⟨a, c1, r1, hs, h2⟩
  · simp [mcommit] at h1
  · simp [mret] at h2

/-- Any failed run never wrote the durable store: the commit is unreachable
once any stage has failed. -/
theorem capture_none_durable {s0 : Store} {inp : List String} {c : Conn}
    (h : capture s0 inp = (c, none)) : c.durable = s0 := by
  unfold capture capture_session at h
  rcases mseq_eq_none h with h1 | ⟨iid, c1, r1, hs1, h2⟩
  · have hd := durPres_stage_intent ⟨s0, s0, []⟩ inp
    rw [h1] at hd
    exact hd
  · have hd1 : c1.durable = s0 := by
      have hd := durPres_stage_intent ⟨s0, s0, []⟩ inp
      rw [hs1] at hd
      exact hd
    rcases mseq_eq_none h2 with h1 | ⟨oid, c2, r2, hs2, h3⟩
    · have hd := durPres_stage_observation iid c1 r1
      rw [h1] at hd
      exact hd.trans hd1
    · have hd2 : c2.durable = s0 := by
        have hd := durPres_stage_observation iid c1 r1
        rw [hs2] at hd
        exact hd.trans hd1
      rcases mseq_eq_none h3 with h1 | ⟨hids, c3, r3, hs3, h4⟩
      · have hd := durPres_stage_hypotheses oid c2 r2
        rw [h1] at hd
        exact hd.trans hd2
      · have hd3 : c3.durable = s0 := by
          have hd := durPres_stage_hypotheses oid c2 r2
          rw [hs3] at hd
          exact hd.trans hd2
        rcases mseq_eq_none h4 with h1 | ⟨tt, c4, r4, hs4, h5⟩
        · have hd := durPres_stage_test hids c3 r3
          rw [h1] at hd
          exact hd.trans hd3
        · have hd4 : c4.durable = s0 := by
            have hd := durPres_stage_test hids c3 r3
            rw [hs4] at hd
            exact hd.trans hd3
          rcases mseq_eq_none h5 with h1 | ⟨ocid, c5, r5, hs5, h6⟩
          · have hd := durPres_stage_outcome oid tt.1 tt.2 c4 r4
            rw [h1] at hd
            exact hd.trans hd4
          · have hd5 : c5.durable = s0 := by
              have hd := durPres_stage_outcome oid tt.1 tt.2 c4 r4
              rw [hs5] at hd
              exact hd.trans hd4
            rcases mseq_eq_none h6 with h1 | ⟨u, c6, r6, hs6, h7⟩
            · have hd := durPres_stage_pattern_seed ocid c5 r5
              rw [h1] at hd
              exact hd.trans hd5
            · exact absurd h7 (fun hx => commit_tail_ne_none hx)


/-! ## Success characterization of each stage -/

theorem stage_intent_spec {c c2 : Conn} {inp r : List String} {iid : Nat}
    (h : stage_intent c inp = (c2, some (iid, r))) :
    iid = c.pending.intents.length + 1 ∧
    ∃ row : IntentRow, row.id = iid ∧
      c2 = { c with
        pending := { c.pending with intents := c.pending.intents ++ [row] },
        log := c.log ++ [Ev.read "Intent goal", Ev.read "Intent constraints",
                         Ev.read "Intent success signal", Ev.read "Intent confidence",
                         Ev.ins "intents" iid] } := by
  unfold stage_intent at h
  obtain ⟨g, ca, ra, hpa, h⟩ := mseq_eq_some h
  obtain ⟨hga, hca⟩ := mprompt_eq_some hpa
  obtain ⟨cstr, cb, rb, hpb, h⟩ := mseq_eq_some h
  obtain ⟨hgb, hcb⟩ := mprompt_eq_some hpb
  obtain ⟨ss, cc, rc, hpc, h⟩ := mseq_eq_some h
  obtain ⟨hgc, hcc⟩ := mprompt_eq_some hpc
  obtain ⟨cf, cd, rd, hpd, h⟩ := mseq_eq_some h
  obtain ⟨hgd, hcd⟩ := mprompt_eq_some hpd
  rw [minsert_eq] at h
  subst hca
  subst hcb
  subst hcc
  subst hcd
  simp only [Prod.mk.injEq, Option.some.injEq] at h
  obtain ⟨hc2, hiid, hr⟩ := h
  constructor
  · rw [← hiid]
    simp [Store.insIntent]
  · refine ⟨⟨iid, g, cstr, ss, cf⟩, rfl, ?_⟩
    rw [← hc2, ← hiid]
    simp [Store.insIntent]

theorem stage_observation_spec {intent_id : Nat} {c c2 : Conn} {inp r : List String}
    {oid : Nat}
    (h : stage_observation intent_id c inp = (c2, some (oid, r))) :
    oid = c.pending.observations.length + 1 ∧
    ∃ row : ObservationRow, row.id = oid ∧ row.intent_id = intent_id ∧
      c2 = { c with
        pending := { c.pending with observations := c.pending.observations ++ [row] },
        log := c.log ++ [Ev.read "Observation description",
                         Ev.read "Observation domain signature mixture",
                         Ev.ins "observations" oid] } := by
  unfold stage_observation at h
  obtain ⟨d, ca, ra, hpa, h⟩ := mseq_eq_some h
  obtain ⟨hga, hca⟩ := mprompt_eq_some hpa
  obtain ⟨mv, cb, rb, hpb, h⟩ := mseq_eq_some h
  obtain ⟨hgb, hcb⟩ := mprompt_eq_some hpb
  rw [minsert_eq] at h
  subst hca
  subst hcb
  simp only [Prod.mk.injEq, Option.some.injEq] at h
  obtain ⟨hc2, hoid, hr⟩ := h
  constructor
  · rw [← hoid]
    simp [Store.insObservation]
  · refine ⟨⟨oid, intent_id, d, mv⟩, rfl, rfl, ?_⟩
    rw [← hc2, ← hoid]
    simp [Store.insObservation]

theorem collect_hypothesis_spec {idx : Nat} {c c2 : Conn} {inp r : List String}
    {hin : HypothesisInput}
    (h : collect_hypothesis idx c inp = (c2, some (hin, r))) :
    c2 = { c with log := c.log ++ hypFieldReads idx } := by
  unfold collect_hypothesis at h
  obtain ⟨mt, ca, ra, hpa, h⟩ := mseq_eq_some h
  obtain ⟨hga, hca⟩ := mprompt_eq_some hpa
  obtain ⟨pr, cb, rb, hpb, h⟩ := mseq_eq_some h
  obtain ⟨hgb, hcb⟩ := mprompt_eq_some hpb
  obtain ⟨fa, cc, rc, hpc, h⟩ := mseq_eq_some h
  obtain ⟨hgc, hcc⟩ := mprompt_eq_some hpc
  obtain ⟨mv, cd, rd, hpd, h⟩ := mseq_eq_some h
  obtain ⟨hgd, hcd⟩ := mprompt_eq_some hpd
  rw [mret_eq] at h
  simp only [Prod.mk.injEq, Option.some.injEq] at h
  obtain ⟨hc2, hv, hr⟩ := h
  subst hca
  subst hcb
  subst hcc
  subst hcd
  rw [← hc2]
  simp [hypFieldReads]

theorem collect_hypotheses_spec (n : Nat) :
    ∀ {idx : Nat} {c c2 : Conn} {inp r : List String} {hs : List HypothesisInput},
      collect_hypotheses idx n c inp = (c2, some (hs, r)) →
      hs.length = n ∧ c2 = { c with log := c.log ++ hypReadsFrom idx n } := by
  induction n with
  | zero =>
      intro idx c c2 inp r hs h
      unfold collect_hypotheses at h
      rw [mret_eq] at h
      simp only [Prod.mk.injEq, Option.some.injEq] at h
      obtain ⟨hc2, hv, hr⟩ := h
      obtain ⟨cd, cp, cl⟩ := c
      subst hc2
      simp [← hv, hypReadsFrom]
  | succ k ih =>
      intro idx c c2 inp r hs h
      unfold collect_hypotheses at h
      obtain ⟨h1, ca, ra, hpa, h⟩ := mseq_eq_some h
      have hca := collect_hypothesis_spec hpa
      obtain ⟨hts, cb, rb, hpb, h⟩ := mseq_eq_some h
      obtain ⟨hlen, hcb⟩ := ih hpb
      rw [mret_eq] at h
      simp only [Prod.mk.injEq, Option.some.injEq] at h
      obtain ⟨hc2, hv, hr⟩ := h
      subst hca
      subst hcb
      constructor
      · rw [← hv]
        simp [hlen]
      · rw [← hc2]
        simp [hypReadsFrom]

theorem insert_hypotheses_eq (observation_id : Nat) (hs : List HypothesisInput)
    (c : Conn) (inp : List String) :
    insert_hypotheses observation_id hs c inp =
      ({ c with
          pending := { c.pending with hypotheses := c.pending.hypotheses ++ hypRows observation_id (c.pending.hypotheses.length + 1) hs },
          log := c.log ++ (List.range' (c.pending.hypotheses.length + 1) hs.length).map (fun i => Ev.ins "hypotheses" i) },
        some (List.range' (c.pending.hypotheses.length + 1) hs.length, inp)) := by
  induction hs generalizing c with
  | nil =>
      obtain ⟨cd, cp, cl⟩ := c
      simp [insert_hypotheses, mret, hypRows]
  | cons h t ih =>
      obtain ⟨cd, cp, cl⟩ := c
      unfold insert_hypotheses
      rw [mseq_some _ (minsert_eq _ _ _ _)]
      rw [mseq_some _ (ih _)]
      rw [mret_eq]
      simp [Store.insHypothesis, hypRows, List.range'_succ, List.append_assoc]

/-- Any value the integer prompt accepts lies within its bounds. -/
theorem prompt_int_sound (lo hi : Int) :
    ∀ {inp : List String} {v : Int} {r : List String},
      prompt_int lo hi inp = some (v, r) → lo ≤ v ∧ v ≤ hi := by
  intro inp
  induction inp with
  | nil =>
      intro v r h
      simp [prompt_int] at h
  | cons raw rest ih =>
      intro v r h
      unfold prompt_int at h
      split at h
      · exact ih h
      · split at h
        · next hcond =>
            simp only [Option.some.injEq, Prod.mk.injEq] at h
            obtain ⟨hv, hr⟩ := h
            subst hv
            exact hcond
        · exact ih h

theorem stage_hypotheses_spec {observation_id : Nat} {c c2 : Conn} {inp r : List String}
    {hids : List Nat}
    (h : stage_hypotheses observation_id c inp = (c2, some (hids, r))) :
    ∃ (n : Int) (hins : List HypothesisInput),
      3 ≤ n ∧ n ≤ 7 ∧ hins.length = n.toNat ∧
      hids = List.range' (c.pending.hypotheses.length + 1) hins.length ∧
      c2 = { c with
        pending := { c.pending with hypotheses := c.pending.hypotheses ++ hypRows observation_id (c.pending.hypotheses.length + 1) hins },
        log := c.log ++ ([Ev.read "Number of hypotheses"] ++ (hypReadsFrom 1 hins.length ++ hids.map (fun i => Ev.ins "hypotheses" i))) } := by
  unfold stage_hypotheses at h
  obtain ⟨n, ca, ra, hpa, h⟩ := mseq_eq_some h
  obtain ⟨hga, hca⟩ := mprompt_eq_some hpa
  obtain ⟨hins, cb, rb, hpb, h⟩ := mseq_eq_some h
  obtain ⟨hlen, hcb⟩ := collect_hypotheses_spec _ hpb
  rw [insert_hypotheses_eq] at h
  simp only [Prod.mk.injEq, Option.some.injEq] at h
  obtain ⟨hc2, hhids, hr⟩ := h
  obtain ⟨hlo, hhi⟩ := prompt_int_sound 3 7 hga
  subst hca
  subst hcb
  subst hhids
  refine ⟨n, hins, hlo, hhi, hlen, ?_, ?_⟩
  · simp
  · rw [← hc2]
    simp [List.append_assoc, hlen]

theorem stage_test_spec {hids : List Nat} {c c2 : Conn} {inp r : List String}
    {x : Nat × Nat}
    (h : stage_test hids c inp = (c2, some (x, r))) :
    ∃ (k : Int) (row : TestRow),
      1 ≤ k ∧ k ≤ (hids.length : Int) ∧
      x.1 = chosenHyp hids k ∧
      x.2 = c.pending.tests.length + 1 ∧
      row.id = x.2 ∧ row.hypothesis_id = x.1 ∧
      c2 = { c with
        pending := { c.pending with tests := c.pending.tests ++ [row] },
        log := c.log ++ [Ev.read "Choose hypothesis to test (index)", Ev.read "Test description", Ev.read "Test result", Ev.read "Test evidence", Ev.ins "tests" x.2] } := by
  unfold stage_test at h
  obtain ⟨k, ca, ra, hpa, h⟩ := mseq_eq_some h
  obtain ⟨hga, hca⟩ := mprompt_eq_some hpa
  obtain ⟨d, cb, rb, hpb, h⟩ := mseq_eq_some h
  obtain ⟨hgb, hcb⟩ := mprompt_eq_some hpb
  obtain ⟨res, cc, rc, hpc, h⟩ := mseq_eq_some h
  obtain ⟨hgc, hcc⟩ := mprompt_eq_some hpc
  obtain ⟨ev, cd, rd, hpd, h⟩ := mseq_eq_some h
  obtain ⟨hgd, hcd⟩ := mprompt_eq_some hpd
  obtain ⟨tid, ce, re, hpe, h⟩ := mseq_eq_some h
  rw [minsert_eq] at hpe
  simp only [Prod.mk.injEq, Option.some.injEq] at hpe
  obtain ⟨hce, htid, hre⟩ := hpe
  rw [mret_eq] at h
  simp only [Prod.mk.injEq, Option.some.injEq] at h
  obtain ⟨hc2, hx, hr⟩ := h
  obtain ⟨hlo, hhi⟩ := prompt_int_sound 1 (hids.length : Int) hga
  subst hca
  subst hcb
  subst hcc
  subst hcd
  subst hce
  subst hc2
  subst hx
  subst htid
  refine ⟨k, ⟨c.pending.tests.length + 1, hids.getD (k.toNat - 1) 0, d, res, ev⟩, hlo, hhi, rfl, ?_, ?_, rfl, ?_⟩
  · simp [Store.insTest]
  · simp [Store.insTest]
  · simp [Store.insTest, chosenHyp]

theorem stage_outcome_spec {observation_id hyp_id test_id : Nat} {c c2 : Conn}
    {inp r : List String} {ocid : Nat}
    (h : stage_outcome observation_id hyp_id test_id c inp = (c2, some (ocid, r))) :
    ocid = c.pending.outcomes.length + 1 ∧
    ∃ (summary : String) (refs : List String),
      c2 = { c with
        pending := { c.pending with outcomes := c.pending.outcomes ++ [⟨ocid, observation_id, hyp_id, summary, ensure_test_ref test_id refs⟩] },
        log := c.log ++ [Ev.read "Outcome summary", Ev.read "Outcome evidence refs", Ev.ins "outcomes" ocid] } := by
  unfold stage_outcome at h
  obtain ⟨summ, ca, ra, hpa, h⟩ := mseq_eq_some h
  obtain ⟨hga, hca⟩ := mprompt_eq_some hpa
  obtain ⟨refs, cb, rb, hpb, h⟩ := mseq_eq_some h
  obtain ⟨hgb, hcb⟩ := mprompt_eq_some hpb
  rw [minsert_eq] at h
  simp only [Prod.mk.injEq, Option.some.injEq] at h
  obtain ⟨hc2, hocid, hr⟩ := h
  subst hca
  subst hcb
  constructor
  · rw [← hocid]
    simp [Store.insOutcome]
  · refine ⟨summ, refs, ?_⟩
    rw [← hc2, ← hocid]
    simp [Store.insOutcome]

theorem stage_pattern_seed_spec {outcome_id : Nat} {c c2 : Conn}
    {inp r : List String} {u : Unit}
    (h : stage_pattern_seed outcome_id c inp = (c2, some (u, r))) :
    ∃ row : PatternSeedRow,
      row.id = c.pending.pattern_seeds.length + 1 ∧ row.outcome_id = outcome_id ∧
      c2 = { c with
        pending := { c.pending with pattern_seeds := c.pending.pattern_seeds ++ [row] },
        log := c.log ++ [Ev.read "Pattern trigger", Ev.read "Pattern invariant", Ev.read "Pattern counterexample", Ev.read "Pattern best response", Ev.read "Pattern domain signature mixture", Ev.read "Pattern evidence refs", Ev.ins "pattern_seeds" (c.pending.pattern_seeds.length + 1)] } := by
  unfold stage_pattern_seed at h
  obtain ⟨t1, ca, ra, hpa, h⟩ := mseq_eq_some h
  obtain ⟨hga, hca⟩ := mprompt_eq_some hpa
  obtain ⟨t2, cb, rb, hpb, h⟩ := mseq_eq_some h
  obtain ⟨hgb, hcb⟩ := mprompt_eq_some hpb
  obtain ⟨t3, cc, rc, hpc, h⟩ := mseq_eq_some h
  obtain ⟨hgc, hcc⟩ := mprompt_eq_some hpc
  obtain ⟨t4, cd, rd, hpd, h⟩ := mseq_eq_some h
  obtain ⟨hgd, hcd⟩ := mprompt_eq_some hpd
  obtain ⟨mv, ce, re, hpe, h⟩ := mseq_eq_some h
  obtain ⟨hge, hce⟩ := mprompt_eq_some hpe
  obtain ⟨refs, cf, rf, hpf, h⟩ := mseq_eq_some h
  obtain ⟨hgf, hcf⟩ := mprompt_eq_some hpf
  obtain ⟨sid, cg, rg, hpg, h⟩ := mseq_eq_some h
  rw [minsert_eq] at hpg
  simp only [Prod.mk.injEq, Option.some.injEq] at hpg
  obtain ⟨hcg, hsid, hrg⟩ := hpg
  rw [mret_eq] at h
  simp only [Prod.mk.injEq, Option.some.injEq] at h
  obtain ⟨hc2, hr⟩ := h
  subst hca
  subst hcb
  subst hcc
  subst hcd
  subst hce
  subst hcf
  refine ⟨⟨c.pending.pattern_seeds.length + 1, outcome_id, t1, t2, t3, t4, mv, refs⟩, rfl, rfl, ?_⟩
  rw [← hc2, ← hcg]
  simp [Store.insPatternSeed]

/-- Full characterization of a successful capture session: the committed
store is the initial store plus one row per stage (with all foreign keys
wired), the returned identifiers are the allocated rowids, and the event log
lists the prompts and INSERTs in program order. -/
theorem capture_success_spec {s0 : Store} {inp : List String} {c : Conn}
    {res : CaptureResult} {rest : List String}
    (h : capture s0 inp = (c, some (res, rest))) :
    ∃ (irow : IntentRow) (orow : ObservationRow) (hins : List HypothesisInput)
      (n k : Int) (trow : TestRow) (summary : String) (orefs : List String)
      (srow : PatternSeedRow),
      res.intent_id = s0.intents.length + 1 ∧
      res.observation_id = s0.observations.length + 1 ∧
      res.test_id = s0.tests.length + 1 ∧
      res.outcome_id = s0.outcomes.length + 1 ∧
      3 ≤ n ∧ n ≤ 7 ∧ hins.length = n.toNat ∧
      res.hypothesis_ids = List.range' (s0.hypotheses.length + 1) hins.length ∧
      1 ≤ k ∧ k ≤ (res.hypothesis_ids.length : Int) ∧
      irow.id = res.intent_id ∧
      orow.id = res.observation_id ∧ orow.intent_id = res.intent_id ∧
      trow.id = res.test_id ∧ trow.hypothesis_id = chosenHyp res.hypothesis_ids k ∧
      srow.id = s0.pattern_seeds.length + 1 ∧ srow.outcome_id = res.outcome_id ∧
      c.pending = { s0 with
        intents := s0.intents ++ [irow],
        observations := s0.observations ++ [orow],
        hypotheses := s0.hypotheses ++ hypRows res.observation_id (s0.hypotheses.length + 1) hins,
        tests := s0.tests ++ [trow],
        outcomes := s0.outcomes ++ [⟨res.outcome_id, res.observation_id, chosenHyp res.hypothesis_ids k, summary, ensure_test_ref res.test_id orefs⟩],
        pattern_seeds := s0.pattern_seeds ++ [srow] } ∧
      c.durable = c.pending ∧
      c.log = [Ev.read "Intent goal", Ev.read "Intent constraints", Ev.read "Intent success signal", Ev.read "Intent confidence", Ev.ins "intents" res.intent_id, Ev.read "Observation description", Ev.read "Observation domain signature mixture", Ev.ins "observations" res.observation_id, Ev.read "Number of hypotheses"] ++ (hypReadsFrom 1 hins.length ++ (res.hypothesis_ids.map (fun i => Ev.ins "hypotheses" i) ++ [Ev.read "Choose hypothesis to test (index)", Ev.read "Test description", Ev.read "Test result", Ev.read "Test evidence", Ev.ins "tests" res.test_id, Ev.read "Outcome summary", Ev.read "Outcome evidence refs", Ev.ins "outcomes" res.outcome_id, Ev.read "Pattern trigger", Ev.read "Pattern invariant", Ev.read "Pattern counterexample", Ev.read "Pattern best response", Ev.read "Pattern domain signature mixture", Ev.read "Pattern evidence refs", Ev.ins "pattern_seeds" (s0.pattern_seeds.length + 1)])) := by
  unfold capture capture_session at h
  obtain ⟨iid, c1, r1, hs1, h⟩ := mseq_eq_some h
  obtain ⟨hiid, irow, hirowid, hc1⟩ := stage_intent_spec hs1
  subst hc1
  obtain ⟨oid, c2, r2, hs2, h⟩ := mseq_eq_some h
  obtain ⟨hoid, orow, horowid, horowiid, hc2⟩ := stage_observation_spec hs2
  subst hc2
  obtain ⟨hids, c3, r3, hs3, h⟩ := mseq_eq_some h
  obtain ⟨n, hins, hn3, hn7, hlen, hhids, hc3⟩ := stage_hypotheses_spec hs3
  subst hc3
  obtain ⟨tt, c4, r4, hs4, h⟩ := mseq_eq_some h
  obtain ⟨k, trow, hk1, hk2, htt1, htt2, htrowid, htrowhyp, hc4⟩ := stage_test_spec hs4
  subst hc4
  obtain ⟨ocid, c5, r5, hs5, h⟩ := mseq_eq_some h
  obtain ⟨hocid, summ, orefs, hc5⟩ := stage_outcome_spec hs5
  subst hc5
  obtain ⟨u, c6, r6, hs6, h⟩ := mseq_eq_some h
  obtain ⟨srow, hsrowid, hsrowoc, hc6⟩ := stage_pattern_seed_spec hs6
  subst hc6
  obtain ⟨u2, c7, r7, hs7, h⟩ := mseq_eq_some h
  rw [mcommit_eq] at hs7
  simp only [Prod.mk.injEq, Option.some.injEq] at hs7
  obtain ⟨hc7, hu2, hr7⟩ := hs7
  rw [mret_eq] at h
  simp only [Prod.mk.injEq, Option.some.injEq] at h
  obtain ⟨hc, hres, hrest⟩ := h
  subst hc7
  subst hc
  subst hres
  subst hhids
  refine ⟨irow, orow, hins, n, k, trow, summ, orefs, srow, ?_, ?_, ?_, ?_, hn3, hn7, hlen, ?_, hk1, ?_, ?_, ?_, ?_, ?_, ?_, ?_, ?_, ?_, ?_, ?_⟩
  · simp [hiid]
  · simp [hoid]
  · simp [htt2]
  · simp [hocid]
  · simp
  · simpa using hk2
  · simp [hirowid, hiid]
  · simp [horowid, hoid]
  · simp [horowiid, hiid]
  · simp [htrowid, htt2]
  · simp [htrowhyp, htt1, chosenHyp]
  · simp [hsrowid]
  · simp [hsrowoc, hocid]
  · simp [htt1, List.append_assoc]
  · simp
  · simp [hiid, hoid, htt2, hocid, List.append_assoc]

/-! ## Facts about the inserted hypothesis rows -/

theorem hypRows_length (oid : Nat) (hs : List HypothesisInput) :
    ∀ sid, (hypRows oid sid hs).length = hs.length := by
  induction hs with
  | nil => intro sid; simp [hypRows]
  | cons h t ih => intro sid; simp [hypRows, ih]

theorem hypRows_obs (oid : Nat) (hs : List HypothesisInput) :
    ∀ sid, ∀ row ∈ hypRows oid sid hs, row.observation_id = oid := by
  induction hs with
  | nil => intro sid row hr; simp [hypRows] at hr
  | cons h t ih =>
      intro sid row hr
      simp only [hypRows, List.mem_cons] at hr
      rcases hr with hr | hr
      · rw [hr]
      · exact ih _ row hr

theorem hypRows_map_id (oid : Nat) (hs : List HypothesisInput) :
    ∀ sid, (hypRows oid sid hs).map (fun row => row.id) = List.range' sid hs.length := by
  induction hs with
  | nil => intro sid; simp [hypRows]
  | cons h t ih => intro sid; simp [hypRows, List.range'_succ, ih]

/-! ## Evaluation of the sample session -/

theorem sample_stage_intent (rest : List String) :
    stage_intent sampleC0 (intentLines ++ rest) = (sampleC1, some (1, rest)) := rfl

theorem sample_stage_observation (rest : List String) :
    stage_observation 1 sampleC1 (obsLines ++ rest) = (sampleC2, some (1, rest)) := rfl

theorem sample_count_prompt (rest : List String) :
    mprompt "Number of hypotheses" (prompt_int 3 7) sampleC2 ("3" :: rest) =
      (sampleC2a, some (3, rest)) := rfl

theorem sample_collect_1 (rest : List String) :
    collect_hypothesis 1 sampleC2a (["me", "0", "f", ""] ++ rest) =
      (sampleC2b, some (sampleHin1, rest)) := rfl

theorem sample_collect_2 (rest : List String) :
    collect_hypothesis 2 sampleC2b (["we", "1", "f", ""] ++ rest) =
      (sampleC2c, some (sampleHin2, rest)) := rfl

theorem sample_collect_3 (rest : List String) :
    collect_hypothesis 3 sampleC2c (["system", "1", "f", ""] ++ rest) =
      (sampleC2d, some (sampleHin3, rest)) := rfl

theorem sample_collect_tail1 (rest : List String) :
    collect_hypotheses 3 1 sampleC2c (["system", "1", "f", ""] ++ rest) =
      (sampleC2d, some ([sampleHin3], rest)) := by
  show mseq (collect_hypothesis 3) _ sampleC2c (["system", "1", "f", ""] ++ rest) = _
  rw [mseq_some _ (sample_collect_3 rest)]
  rfl

theorem sample_collect_tail2 (rest : List String) :
    collect_hypotheses 2 2 sampleC2b
        (["we", "1", "f", ""] ++ (["system", "1", "f", ""] ++ rest)) =
      (sampleC2d, some ([sampleHin2, sampleHin3], rest)) := by
  show mseq (collect_hypothesis 2) _ sampleC2b
    (["we", "1", "f", ""] ++ (["system", "1", "f", ""] ++ rest)) = _
  rw [mseq_some _ (sample_collect_2 (["system", "1", "f", ""] ++ rest))]
  show mseq (collect_hypotheses 3 1) _ sampleC2c (["system", "1", "f", ""] ++ rest) = _
  rw [mseq_some _ (sample_collect_tail1 rest)]
  rfl

theorem sample_collect_all (rest : List String) :
    collect_hypotheses 1 3 sampleC2a
        (["me", "0", "f", "", "we", "1", "f", "", "system", "1", "f", ""] ++ rest) =
      (sampleC2d, some ([sampleHin1, sampleHin2, sampleHin3], rest)) := by
  show mseq (collect_hypothesis 1) _ sampleC2a
    (["me", "0", "f", ""] ++ (["we", "1", "f", ""] ++ (["system", "1", "f", ""] ++ rest))) = _
  rw [mseq_some _ (sample_collect_1 (["we", "1", "f", ""] ++ (["system", "1", "f", ""] ++ rest)))]
  show mseq (collect_hypotheses 2 2) _ sampleC2b
    (["we", "1", "f", ""] ++ (["system", "1", "f", ""] ++ rest)) = _
  rw [mseq_some _ (sample_collect_tail2 rest)]
  rfl

theorem sample_stage_hypotheses (rest : List String) :
    stage_hypotheses 1 sampleC2 (hypLines ++ rest) = (sampleC3, some ([1, 2, 3], rest)) := by
  show mseq (mprompt "Number of hypotheses" (prompt_int 3 7)) _ sampleC2
    ("3" :: (["me", "0", "f", "", "we", "1", "f", "", "system", "1", "f", ""] ++ rest)) = _
  rw [mseq_some _ (sample_count_prompt _)]
  show mseq (collect_hypotheses 1 3) _ sampleC2a
    (["me", "0", "f", "", "we", "1", "f", "", "system", "1", "f", ""] ++ rest) = _
  rw [mseq_some _ (sample_collect_all rest)]
  rw [insert_hypotheses_eq]
  rfl

theorem sample_stage_test (rest : List String) :
    stage_test [1, 2, 3] sampleC3 (testLines ++ rest) = (sampleC4, some ((1, 1), rest)) := rfl

theorem sample_stage_outcome (rest : List String) :
    stage_outcome 1 1 1 sampleC4 (outcomeLines ++ rest) = (sampleC5, some (1, rest)) := rfl

theorem sample_stage_seed (rest : List String) :
    stage_pattern_seed 1 sampleC5 (seedLines ++ rest) = (sampleC6, some ((), rest)) := rfl

/-- Evaluation of the complete sample session. -/
theorem sample_run : capture emptyStore sampleInput = (sampleConn, some (sampleRes, [])) := by
  unfold capture sampleInput
  show capture_session sampleC0 _ = _
  unfold capture_session
  rw [mseq_some _ (sample_stage_intent _)]
  rw [mseq_some _ (sample_stage_observation _)]
  rw [mseq_some _ (sample_stage_hypotheses _)]
  rw [mseq_some _ (sample_stage_test _)]
  rw [mseq_some _ (sample_stage_outcome _)]
  show mseq (stage_pattern_seed 1) _ sampleC5 (seedLines ++ ([] : List String)) = _
  rw [mseq_some _ (sample_stage_seed [])]
  rw [mseq_some _ (mcommit_eq _ _)]
  rw [mret_eq]
  rfl

/-! ## Small facts used by the claims -/

theorem insEvents_append (a b : List Ev) :
    insEvents (a ++ b) = insEvents a ++ insEvents b := by
  simp [insEvents, List.filterMap_append]

theorem insEvents_hypReadsFrom (n : Nat) :
    ∀ idx, insEvents (hypReadsFrom idx n) = [] := by
  induction n with
  | zero => intro idx; simp [hypReadsFrom, insEvents]
  | succ k ih =>
      intro idx
      show insEvents (hypFieldReads idx ++ hypReadsFrom (idx + 1) k) = []
      rw [insEvents_append, ih]
      simp [hypFieldReads, insEvents]

theorem insEvents_ins_map (t : String) (l : List Nat) :
    insEvents (l.map (fun i => Ev.ins t i)) = l.map (fun i => (t, i)) := by
  induction l with
  | nil => simp [insEvents]
  | cons x xs ih => simp only [List.map_cons, insEvents, List.filterMap_cons] at ih ⊢; simp [ih]

theorem chosenHyp_mem {hids : List Nat} {k : Int}
    (h1 : 1 ≤ k) (h2 : k ≤ (hids.length : Int)) : chosenHyp hids k ∈ hids := by
  unfold chosenHyp
  have hlt : k.toNat - 1 < hids.length := by omega
  rw [List.getD_eq_getElem _ _ hlt]
  exact List.getElem_mem hlt

theorem ensure_test_ref_mem (tid : Nat) (refs : List String) :
    test_ref_tok tid ∈ ensure_test_ref tid refs := by
  unfold ensure_test_ref
  split
  · assumption
  · simp

theorem ensure_test_ref_of_not_mem {tid : Nat} {refs : List String}
    (h : test_ref_tok tid ∉ refs) :
    ensure_test_ref tid refs = refs ++ [test_ref_tok tid] := by
  unfold ensure_test_ref
  rw [if_neg h]

theorem ensure_test_ref_of_mem {tid : Nat} {refs : List String}
    (h : test_ref_tok tid ∈ refs) : ensure_test_ref tid refs = refs := by
  unfold ensure_test_ref
  rw [if_pos h]

theorem ensure_test_ref_count_of_not_mem {tid : Nat} {refs : List String}
    (h : test_ref_tok tid ∉ refs) :
    (ensure_test_ref tid refs).count (test_ref_tok tid) = 1 := by
  rw [ensure_test_ref_of_not_mem h, List.count_append]
  simp [List.count_eq_zero.mpr h]

/-! ## The claims -/

/-- C1: in every completed capture session, each foreign key written to the
store (Observation.intent_id, Hypothesis.observation_id, Test.hypothesis_id,
Outcome.observation_id / hypothesis_id, PatternSeed.outcome_id) equals an
identifier allocated by the store for a record inserted earlier in the same
session, and the INSERTs happen in the strict stage order Intent,
Observation, Hypotheses, Test, Outcome, PatternSeed. -/
theorem fk_chain_integrity {s0 : Store} {inp : List String} {c : Conn}
    {res : CaptureResult} {rest : List String}
    (h : capture s0 inp = (c, some (res, rest))) :
    insEvents c.log = [("intents", res.intent_id), ("observations", res.observation_id)] ++ (res.hypothesis_ids.map (fun i => ("hypotheses", i)) ++ [("tests", res.test_id), ("outcomes", res.outcome_id), ("pattern_seeds", s0.pattern_seeds.length + 1)]) ∧
    (∃ irow : IntentRow, c.durable.intents = s0.intents ++ [irow] ∧ irow.id = res.intent_id) ∧
    (∃ orow : ObservationRow, c.durable.observations = s0.observations ++ [orow] ∧ orow.id = res.observation_id ∧ orow.intent_id = res.intent_id) ∧
    (∃ hrows : List HypothesisRow, c.durable.hypotheses = s0.hypotheses ++ hrows ∧ hrows.map (fun row => row.id) = res.hypothesis_ids ∧ ∀ row ∈ hrows, row.observation_id = res.observation_id) ∧
    (∃ trow : TestRow, c.durable.tests = s0.tests ++ [trow] ∧ trow.id = res.test_id ∧ trow.hypothesis_id ∈ res.hypothesis_ids) ∧
    (∃ ocrow : OutcomeRow, c.durable.outcomes = s0.outcomes ++ [ocrow] ∧ ocrow.id = res.outcome_id ∧ ocrow.observation_id = res.observation_id ∧ ocrow.hypothesis_id ∈ res.hypothesis_ids) ∧
    (∃ srow : PatternSeedRow, c.durable.pattern_seeds = s0.pattern_seeds ++ [srow] ∧ srow.id = s0.pattern_seeds.length + 1 ∧ srow.outcome_id = res.outcome_id) := by
  obtain ⟨irow, orow, hins, n, k, trow, summ, orefs, srow,
    A1, A2, A3, A4, A5, A6, A7, A8, A9, A10,
    A11, A12, A13, A14, A15, A16, A17, A18, A19, A20⟩ := capture_success_spec h
  refine ⟨?_, ?_, ?_, ?_, ?_, ?_, ?_⟩
  · rw [A20, insEvents_append, insEvents_append, insEvents_hypReadsFrom, insEvents_append, insEvents_ins_map]
    simp [insEvents]
  · refine ⟨irow, ?_, A11⟩
    rw [A19, A18]
  · refine ⟨orow, ?_, A12, A13⟩
    rw [A19, A18]
  · refine ⟨hypRows res.observation_id (s0.hypotheses.length + 1) hins, ?_, ?_, ?_⟩
    · rw [A19, A18]
    · rw [hypRows_map_id]
      exact A8.symm
    · exact fun row hr => hypRows_obs _ _ _ row hr
  · refine ⟨trow, ?_, A14, ?_⟩
    · rw [A19, A18]
    · rw [A15]
      exact chosenHyp_mem A9 A10
  · refine ⟨⟨res.outcome_id, res.observation_id, chosenHyp res.hypothesis_ids k, summ, ensure_test_ref res.test_id orefs⟩, ?_, rfl, rfl, ?_⟩
    · rw [A19, A18]
    · exact chosenHyp_mem A9 A10
  · refine ⟨srow, ?_, A16, A17⟩
    rw [A19, A18]

/-- Witness for C1: the sample session. -/
theorem fk_chain_integrity_witness :
    insEvents sampleConn.log = [("intents", sampleRes.intent_id), ("observations", sampleRes.observation_id)] ++ (sampleRes.hypothesis_ids.map (fun i => ("hypotheses", i)) ++ [("tests", sampleRes.test_id), ("outcomes", sampleRes.outcome_id), ("pattern_seeds", emptyStore.pattern_seeds.length + 1)]) ∧
    (∃ irow : IntentRow, sampleConn.durable.intents = emptyStore.intents ++ [irow] ∧ irow.id = sampleRes.intent_id) ∧
    (∃ orow : ObservationRow, sampleConn.durable.observations = emptyStore.observations ++ [orow] ∧ orow.id = sampleRes.observation_id ∧ orow.intent_id = sampleRes.intent_id) ∧
    (∃ hrows : List HypothesisRow, sampleConn.durable.hypotheses = emptyStore.hypotheses ++ hrows ∧ hrows.map (fun row => row.id) = sampleRes.hypothesis_ids ∧ ∀ row ∈ hrows, row.observation_id = sampleRes.observation_id) ∧
    (∃ trow : TestRow, sampleConn.durable.tests = emptyStore.tests ++ [trow] ∧ trow.id = sampleRes.test_id ∧ trow.hypothesis_id ∈ sampleRes.hypothesis_ids) ∧
    (∃ ocrow : OutcomeRow, sampleConn.durable.outcomes = emptyStore.outcomes ++ [ocrow] ∧ ocrow.id = sampleRes.outcome_id ∧ ocrow.observation_id = sampleRes.observation_id ∧ ocrow.hypothesis_id ∈ sampleRes.hypothesis_ids) ∧
    (∃ srow : PatternSeedRow, sampleConn.durable.pattern_seeds = emptyStore.pattern_seeds ++ [srow] ∧ srow.id = emptyStore.pattern_seeds.length + 1 ∧ srow.outcome_id = sampleRes.outcome_id) :=
  fk_chain_integrity sample_run

/-- C2: the persisted Outcome's evidence_refs always contains the token
`test:<test_id>` for the session's Test; it is appended at the end when the
operator omitted it (then it occurs exactly once) and not duplicated when
the operator already included it. -/
theorem outcome_contains_test_ref {s0 : Store} {inp : List String} {c : Conn}
    {res : CaptureResult} {rest : List String}
    (h : capture s0 inp = (c, some (res, rest))) :
    ∃ (orefs : List String) (ocrow : OutcomeRow),
      c.durable.outcomes = s0.outcomes ++ [ocrow] ∧
      ocrow.evidence_refs = ensure_test_ref res.test_id orefs ∧
      test_ref_tok res.test_id ∈ ocrow.evidence_refs ∧
      (test_ref_tok res.test_id ∉ orefs →
        ocrow.evidence_refs = orefs ++ [test_ref_tok res.test_id] ∧
        ocrow.evidence_refs.count (test_ref_tok res.test_id) = 1) ∧
      (test_ref_tok res.test_id ∈ orefs → ocrow.evidence_refs = orefs) := by
  obtain ⟨irow, orow, hins, n, k, trow, summ, orefs, srow,
    A1, A2, A3, A4, A5, A6, A7, A8, A9, A10,
    A11, A12, A13, A14, A15, A16, A17, A18, A19, A20⟩ := capture_success_spec h
  refine ⟨orefs, ⟨res.outcome_id, res.observation_id, chosenHyp res.hypothesis_ids k, summ, ensure_test_ref res.test_id orefs⟩, ?_, rfl, ?_, ?_, ?_⟩
  · rw [A19, A18]
  · exact ensure_test_ref_mem _ _
  · intro hnot
    exact ⟨ensure_test_ref_of_not_mem hnot, ensure_test_ref_count_of_not_mem hnot⟩
  · intro hmem
    exact ensure_test_ref_of_mem hmem

/-- Witness for C2: the sample session (the operator typed no refs, so the
token was auto-appended). -/
theorem outcome_contains_test_ref_witness :
    ∃ (orefs : List String) (ocrow : OutcomeRow),
      sampleConn.durable.outcomes = emptyStore.outcomes ++ [ocrow] ∧
      ocrow.evidence_refs = ensure_test_ref sampleRes.test_id orefs ∧
      test_ref_tok sampleRes.test_id ∈ ocrow.evidence_refs ∧
      (test_ref_tok sampleRes.test_id ∉ orefs →
        ocrow.evidence_refs = orefs ++ [test_ref_tok sampleRes.test_id] ∧
        ocrow.evidence_refs.count (test_ref_tok sampleRes.test_id) = 1) ∧
      (test_ref_tok sampleRes.test_id ∈ orefs → ocrow.evidence_refs = orefs) :=
  outcome_contains_test_ref sample_run

/-- C3: the number of Hypothesis rows created equals the operator-chosen
count N with N ∈ [3,7]; the inputs `2`, `8` and a non-integer are rejected
with a re-prompt, and the count prompt only ever returns a value in
[3,7]. -/
theorem hypothesis_count_bounds {s0 : Store} {inp : List String} {c : Conn}
    {res : CaptureResult} {rest : List String}
    (h : capture s0 inp = (c, some (res, rest))) :
    (∃ n : Int, 3 ≤ n ∧ n ≤ 7 ∧ res.hypothesis_ids.length = n.toNat ∧
      c.durable.hypotheses.length = s0.hypotheses.length + res.hypothesis_ids.length) ∧
    (∀ rest2 : List String,
      prompt_int 3 7 ("2" :: rest2) = prompt_int 3 7 rest2 ∧
      prompt_int 3 7 ("8" :: rest2) = prompt_int 3 7 rest2 ∧
      prompt_int 3 7 ("x" :: rest2) = prompt_int 3 7 rest2) ∧
    (∀ (inp2 : List String) (v : Int) (r2 : List String),
      prompt_int 3 7 inp2 = some (v, r2) → 3 ≤ v ∧ v ≤ 7) := by
  obtain ⟨irow, orow, hins, n, k, trow, summ, orefs, srow,
    A1, A2, A3, A4, A5, A6, A7, A8, A9, A10,
    A11, A12, A13, A14, A15, A16, A17, A18, A19, A20⟩ := capture_success_spec h
  refine ⟨⟨n, A5, A6, ?_, ?_⟩, ?_, ?_⟩
  · rw [A8, List.length_range', A7]
  · rw [A19, A18]
    simp [hypRows_length, A8]
  · intro rest2
    exact ⟨rfl, rfl, rfl⟩
  · intro inp2 v r2 hp
    exact prompt_int_sound 3 7 hp

/-- Witness for C3: the sample session chose N = 3. -/
theorem hypothesis_count_bounds_witness :
    (∃ n : Int, 3 ≤ n ∧ n ≤ 7 ∧ sampleRes.hypothesis_ids.length = n.toNat ∧
      sampleConn.durable.hypotheses.length = emptyStore.hypotheses.length + sampleRes.hypothesis_ids.length) ∧
    (∀ rest2 : List String,
      prompt_int 3 7 ("2" :: rest2) = prompt_int 3 7 rest2 ∧
      prompt_int 3 7 ("8" :: rest2) = prompt_int 3 7 rest2 ∧
      prompt_int 3 7 ("x" :: rest2) = prompt_int 3 7 rest2) ∧
    (∀ (inp2 : List String) (v : Int) (r2 : List String),
      prompt_int 3 7 inp2 = some (v, r2) → 3 ≤ v ∧ v ≤ 7) :=
  hypothesis_count_bounds sample_run

/-- C5: the persisted Outcome's hypothesis_id equals the hypothesis_id of
the Test created in the same session (the hypothesis selected by the
operator's 1-based index k), and its observation_id is the session's
observation id. -/
theorem outcome_links_test_hypothesis {s0 : Store} {inp : List String} {c : Conn}
    {res : CaptureResult} {rest : List String}
    (h : capture s0 inp = (c, some (res, rest))) :
    ∃ (trow : TestRow) (ocrow : OutcomeRow) (k : Int),
      c.durable.tests = s0.tests ++ [trow] ∧
      c.durable.outcomes = s0.outcomes ++ [ocrow] ∧
      trow.id = res.test_id ∧
      1 ≤ k ∧ k ≤ (res.hypothesis_ids.length : Int) ∧
      trow.hypothesis_id = chosenHyp res.hypothesis_ids k ∧
      ocrow.hypothesis_id = trow.hypothesis_id ∧
      ocrow.observation_id = res.observation_id := by
  obtain ⟨irow, orow, hins, n, k, trow, summ, orefs, srow,
    A1, A2, A3, A4, A5, A6, A7, A8, A9, A10,
    A11, A12, A13, A14, A15, A16, A17, A18, A19, A20⟩ := capture_success_spec h
  refine ⟨trow, ⟨res.outcome_id, res.observation_id, chosenHyp res.hypothesis_ids k, summ, ensure_test_ref res.test_id orefs⟩, k, ?_, ?_, A14, A9, A10, A15, ?_, rfl⟩
  · rw [A19, A18]
  · rw [A19, A18]
  · exact A15.symm

/-- Witness for C5: the sample session (the operator chose index 1). -/
theorem outcome_links_test_hypothesis_witness :
    ∃ (trow : TestRow) (ocrow : OutcomeRow) (k : Int),
      sampleConn.durable.tests = emptyStore.tests ++ [trow] ∧
      sampleConn.durable.outcomes = emptyStore.outcomes ++ [ocrow] ∧
      trow.id = sampleRes.test_id ∧
      1 ≤ k ∧ k ≤ (sampleRes.hypothesis_ids.length : Int) ∧
      trow.hypothesis_id = chosenHyp sampleRes.hypothesis_ids k ∧
      ocrow.hypothesis_id = trow.hypothesis_id ∧
      ocrow.observation_id = sampleRes.observation_id :=
  outcome_links_test_hypothesis sample_run

/-- C4: a session that terminates before the final commit (the input stream
closing at any stage) leaves the visible store exactly as it was before the
session started: the whole session is one transaction, committed only at the
very end, so no partial rows of any entity are visible afterwards. -/
theorem abort_leaves_store_unchanged {s0 : Store} {inp : List String} {c : Conn}
    (h : capture s0 inp = (c, none)) : closeVisible c = s0 :=
  capture_none_durable h

/-- Witness for C4: the input stream closes immediately. -/
theorem abort_leaves_store_unchanged_witness :
    closeVisible (capture emptyStore []).1 = emptyStore :=
  abort_leaves_store_unchanged (Prod.ext rfl rfl)

/-- C6 counterexample: a completed session in which hypothesis 2's first
field prompt (log position 13, 0-based) happens while hypothesis 1 has not
been inserted — the first 14 log events contain hypothesis 2's model-type
read but no `hypotheses` INSERT, contradicting the claim that each
hypothesis is persisted before the next one's fields are collected. -/
theorem hypotheses_batched_cex :
    (capture emptyStore sampleInput).2 = some (sampleRes, []) ∧
    (capture emptyStore sampleInput).1.log.take 14 =
      [Ev.read "Intent goal", Ev.read "Intent constraints", Ev.read "Intent success signal",
       Ev.read "Intent confidence", Ev.ins "intents" 1, Ev.read "Observation description",
       Ev.read "Observation domain signature mixture", Ev.ins "observations" 1,
       Ev.read "Number of hypotheses", Ev.read "Hypothesis 1 model type",
       Ev.read "Hypothesis 1 probability", Ev.read "Hypothesis 1 falsifiers",
       Ev.read "Hypothesis 1 domain signature mixture", Ev.read "Hypothesis 2 model type"] ∧
    Ev.ins "hypotheses" 1 ∉ (capture emptyStore sampleInput).1.log.take 14 := by
  rw [sample_run]
  refine ⟨rfl, ?_, ?_⟩
  · rfl
  · decide

/-- C6 as amended: during stage 3 the fields of all N hypotheses are
collected first, in order, and only then are the N hypotheses persisted, in
order, before the test-selection prompt; each identifier is obtained at
persistence time (consecutively from the store). -/
theorem hypotheses_collect_then_persist {s0 : Store} {inp : List String} {c : Conn}
    {res : CaptureResult} {rest : List String}
    (h : capture s0 inp = (c, some (res, rest))) :
    res.hypothesis_ids = List.range' (s0.hypotheses.length + 1) res.hypothesis_ids.length ∧
    ∃ (pre post : List Ev),
      c.log = pre ++ ([Ev.read "Number of hypotheses"] ++ (hypReadsFrom 1 res.hypothesis_ids.length ++ (res.hypothesis_ids.map (fun i => Ev.ins "hypotheses" i) ++ ([Ev.read "Choose hypothesis to test (index)"] ++ post)))) := by
  obtain ⟨irow, orow, hins, n, k, trow, summ, orefs, srow,
    A1, A2, A3, A4, A5, A6, A7, A8, A9, A10,
    A11, A12, A13, A14, A15, A16, A17, A18, A19, A20⟩ := capture_success_spec h
  have hlen : res.hypothesis_ids.length = hins.length := by
    rw [A8, List.length_range']
  constructor
  · rw [hlen, A8]
  · refine ⟨[Ev.read "Intent goal", Ev.read "Intent constraints", Ev.read "Intent success signal", Ev.read "Intent confidence", Ev.ins "intents" res.intent_id, Ev.read "Observation description", Ev.read "Observation domain signature mixture", Ev.ins "observations" res.observation_id],
      [Ev.read "Test description", Ev.read "Test result", Ev.read "Test evidence", Ev.ins "tests" res.test_id, Ev.read "Outcome summary", Ev.read "Outcome evidence refs", Ev.ins "outcomes" res.outcome_id, Ev.read "Pattern trigger", Ev.read "Pattern invariant", Ev.read "Pattern counterexample", Ev.read "Pattern best response", Ev.read "Pattern domain signature mixture", Ev.read "Pattern evidence refs", Ev.ins "pattern_seeds" (s0.pattern_seeds.length + 1)], ?_⟩
    rw [A20, hlen]
    simp [List.append_assoc]

/-- Witness for the amended C6: the sample session. -/
theorem hypotheses_collect_then_persist_witness :
    sampleRes.hypothesis_ids = List.range' (emptyStore.hypotheses.length + 1) sampleRes.hypothesis_ids.length ∧
    ∃ (pre post : List Ev),
      sampleConn.log = pre ++ ([Ev.read "Number of hypotheses"] ++ (hypReadsFrom 1 sampleRes.hypothesis_ids.length ++ (sampleRes.hypothesis_ids.map (fun i => Ev.ins "hypotheses" i) ++ ([Ev.read "Choose hypothesis to test (index)"] ++ post)))) :=
  hypotheses_collect_then_persist sample_run

/-- C7: a malformed mixture-vector entry — e.g. one whose weight is the
non-numeric string `high`, or one missing a non-empty domain — makes
`_parse_mixture_vector` report an error; the collector then re-prompts
(consuming the bad line and continuing on the rest) instead of raising or
coercing, and it only ever returns the result of a successful parse. -/
theorem mixture_collector_rejects_malformed :
    (∀ (raw : String) (rest : List String) (e : String),
      parse_mixture_vector (pyStrip raw) = .error e →
      prompt_mixture_vector (raw :: rest) = prompt_mixture_vector rest) ∧
    (∀ (inp : List String) (v : MixVec) (rest : List String),
      prompt_mixture_vector inp = some (v, rest) →
      ∃ raw : String, parse_mixture_vector (pyStrip raw) = .ok v) ∧
    parse_mixture_vector "[\x7b\"domain\":\"ops\",\"weight\":\"high\"\x7d]" =
      .error "Each mixture entry needs a numeric weight." ∧
    parse_mixture_vector "[\x7b\"weight\":1\x7d]" =
      .error "Each mixture entry needs a non-empty domain string." ∧
    parse_mixture_vector "[\x7b\"domain\":\"\",\"weight\":1\x7d]" =
      .error "Each mixture entry needs a non-empty domain string." := by
  refine ⟨?_, ?_, rfl, rfl, rfl⟩
  · intro raw rest e he
    simp only [prompt_mixture_vector]
    rw [he]
  · intro inp
    induction inp with
    | nil =>
        intro v rest h
        simp [prompt_mixture_vector] at h
    | cons raw tl ih =>
        intro v rest h
        unfold prompt_mixture_vector at h
        split at h
        · next heq =>
            simp only [Option.some.injEq, Prod.mk.injEq] at h
            exact ⟨raw, by rw [heq, h.1]⟩
        · exact ih _ _ h

/-- Witness for C7: the mixture entry with weight `"high"` is rejected and
the collector re-prompts on the remaining input. -/
theorem mixture_collector_rejects_malformed_witness :
    prompt_mixture_vector ("[\x7b\"domain\":\"ops\",\"weight\":\"high\"\x7d]" :: [""]) =
      prompt_mixture_vector [""] :=
  mixture_collector_rejects_malformed.1 _ [""] "Each mixture entry needs a numeric weight." rfl

/-- C10: a mixture entry whose weight decodes to a Python boolean is
accepted (bool is an int subtype, so `isinstance(weight, (int, float))`
holds) and the weight is stored as `float(weight)`: 1.0 for `true`, 0.0 for
`false`. -/
theorem bool_weight_accepted :
    (∀ (fields : List (String × Json)) (d : String) (b : Bool),
      jget fields "domain" = some (.str d) → d ≠ "" →
      jget fields "weight" = some (.bool b) →
      parseMixEntry (.obj fields) = .ok ⟨d, if b then 1 else 0⟩) ∧
    parse_mixture_vector "[\x7b\"domain\":\"a\",\"weight\":true\x7d]" = .ok [⟨"a", 1⟩] ∧
    parse_mixture_vector "[\x7b\"domain\":\"a\",\"weight\":false\x7d]" = .ok [⟨"a", 0⟩] := by
  refine ⟨?_, rfl, rfl⟩
  intro fields d b hdom hne hw
  simp only [parseMixEntry, hdom, hw]
  simp [hne]

/-- Witness for C10: an entry with weight `true` maps to weight 1. -/
theorem bool_weight_accepted_witness :
    parseMixEntry (.obj [("domain", .str "a"), ("weight", .bool true)]) =
      .ok ⟨"a", if true then 1 else 0⟩ :=
  bool_weight_accepted.1 [("domain", .str "a"), ("weight", .bool true)] "a" true rfl
    (by decide) rfl

end HandshakeE

namespace EvezCore

/-! ## Schema-version facts (`evez/db.py`) -/

theorem ensureSchemaTable_has (db : EvezDB) :
    (ensureSchemaTable db).hasSchemaVersionTable = true := by
  unfold ensureSchemaTable
  split
  · assumption
  · rfl

theorem ensureSchemaTable_rows (db : EvezDB) :
    (ensureSchemaTable db).versionRows = db.versionRows := by
  unfold ensureSchemaTable
  split <;> rfl

/-- Any successful `initialize_db` leaves the store at the supported schema
version, with the version table present. -/
theorem initialize_db_ok_state {db db2 : EvezDB} {v : Int}
    (h : initialize_db db = .ok (db2, v)) :
    v = SCHEMA_VERSION ∧ db2.hasSchemaVersionTable = true ∧
      topVersion db2.versionRows = SCHEMA_VERSION := by
  simp only [initialize_db, get_schema_version] at h
  split at h
  · simp at h
  · next hgt =>
      split at h
      · next hlt =>
          split at h
          · simp at h
          · next db3 hmig =>
              simp only [Except.ok.injEq, Prod.mk.injEq] at h
              obtain ⟨hdb, hv⟩ := h
              subst hdb
              subst hv
              rw [ensureSchemaTable_rows] at hlt hmig
              by_cases hzero : topVersion db.versionRows = 0
              · rw [hzero] at hmig
                rw [show migrate (ensureSchemaTable db) 0 SCHEMA_VERSION =
                      .ok (set_schema_version (applySchemaStatements (ensureSchemaTable db)) 1) from rfl] at hmig
                simp only [Except.ok.injEq] at hmig
                rw [← hmig]
                refine ⟨rfl, ?_, rfl⟩
                simp [set_schema_version, applySchemaStatements, ensureSchemaTable_has]
              · exfalso
                obtain ⟨m, hm⟩ : ∃ m, (SCHEMA_VERSION - topVersion db.versionRows).toNat = m + 1 + 1 := by
                  refine ⟨(SCHEMA_VERSION - topVersion db.versionRows).toNat - 2, ?_⟩
                  simp only [SCHEMA_VERSION] at hlt ⊢
                  omega
                unfold migrate at hmig
                rw [hm] at hmig
                simp only [migrateLoop] at hmig
                unfold applyMigration at hmig
                rw [if_neg (fun hc => hzero hc.1)] at hmig
                simp at hmig
      · next hnlt =>
          simp only [Except.ok.injEq, Prod.mk.injEq] at h
          obtain ⟨hdb, hv⟩ := h
          subst hdb
          subst hv
          refine ⟨rfl, ensureSchemaTable_has db, ?_⟩
          simp only [SCHEMA_VERSION] at hgt hnlt ⊢
          omega

/-- Running `initialize_db` again on an initialized store is a no-op with
the same result. -/
theorem initialize_db_second {db db2 : EvezDB} {v : Int}
    (h : initialize_db db = .ok (db2, v)) :
    initialize_db db2 = .ok (db2, v) := by
  obtain ⟨hv, hhas, htop⟩ := initialize_db_ok_state h
  subst hv
  have h1 : ensureSchemaTable db2 = db2 := by
    unfold ensureSchemaTable
    rw [if_pos hhas]
  simp only [initialize_db, get_schema_version, h1, htop]
  norm_num

/-- C9: opening a store whose recorded schema version is newer than the
supported `SCHEMA_VERSION` fails with the fatal error, no migration or
write is applied (the store is unchanged), and the CLI exits non-zero. -/
theorem newer_schema_version_fatal (db : EvezDB)
    (ht : db.hasSchemaVersionTable = true)
    (hv : topVersion db.versionRows > SCHEMA_VERSION) :
    initialize_db db = .error "Database version newer than supported" ∧
    run_init db = (db, 1) := by
  have h1 : ensureSchemaTable db = db := by
    unfold ensureSchemaTable
    rw [if_pos ht]
  have hinit : initialize_db db = .error "Database version newer than supported" := by
    simp only [initialize_db, get_schema_version, h1]
    rw [if_pos hv]
  refine ⟨hinit, ?_⟩
  unfold run_init
  rw [hinit, h1]

/-- Witness for C9: a store recorded at version 2 while the program supports
version 1. -/
theorem newer_schema_version_fatal_witness :
    initialize_db ⟨true, [2], [], []⟩ = .error "Database version newer than supported" ∧
    run_init ⟨true, [2], [], []⟩ = (⟨true, [2], [], []⟩, 1) :=
  newer_schema_version_fatal ⟨true, [2], [], []⟩ rfl (by decide)

end EvezCore

namespace HandshakeE

/-! ## Idempotence of `_ensure_schema` -/

theorem createTable_preserves_any {db : SchemaDB} {p : TableState → Bool} (n : String)
    (h : db.tables.any p = true) :
    ((createTableIfNotExists db n).tables.any p) = true := by
  unfold createTableIfNotExists
  split
  · exact h
  · simp only [List.any_append, h, Bool.true_or]

theorem createTable_has (db : SchemaDB) (n : String) :
    ((createTableIfNotExists db n).tables.any (fun t => t.name = n)) = true := by
  unfold createTableIfNotExists
  split
  · next h => exact h
  · simp

theorem foldl_create_preserves_any {p : TableState → Bool} (names : List String) :
    ∀ db : SchemaDB, db.tables.any p = true →
      ((names.foldl createTableIfNotExists db).tables.any p) = true := by
  induction names with
  | nil => intro db h; exact h
  | cons m rest ih => intro db h; exact ih _ (createTable_preserves_any m h)

theorem foldl_create_has (names : List String) :
    ∀ (db : SchemaDB) (n : String), n ∈ names →
      ((names.foldl createTableIfNotExists db).tables.any (fun t => t.name = n)) = true := by
  induction names with
  | nil => intro db n hn; simp at hn
  | cons m rest ih =>
      intro db n hn
      rcases List.mem_cons.mp hn with hn | hn
      · subst hn
        exact foldl_create_preserves_any rest _ (createTable_has db n)
      · exact ih _ n hn

theorem foldl_create_id (names : List String) :
    ∀ db : SchemaDB, (∀ n ∈ names, db.tables.any (fun t => t.name = n) = true) →
      names.foldl createTableIfNotExists db = db := by
  induction names with
  | nil => intro db h; rfl
  | cons m rest ih =>
      intro db h
      have hm : createTableIfNotExists db m = db := by
        unfold createTableIfNotExists
        rw [if_pos (h m (by simp))]
      rw [List.foldl_cons, hm]
      exact ih db (fun n hn => h n (List.mem_cons_of_mem _ hn))

theorem createTable_mem {db : SchemaDB} {t : TableState} (n : String)
    (h : t ∈ db.tables) : t ∈ (createTableIfNotExists db n).tables := by
  unfold createTableIfNotExists
  split
  · exact h
  · exact List.mem_append_left _ h

theorem foldl_create_mem (names : List String) :
    ∀ (db : SchemaDB) (t : TableState), t ∈ db.tables →
      t ∈ ((names.foldl createTableIfNotExists db).tables) := by
  induction names with
  | nil => intro db t h; exact h
  | cons m rest ih => intro db t h; exact ih _ t (createTable_mem m h)

theorem createTable_nodup {db : SchemaDB} (n : String)
    (h : (db.tables.map TableState.name).Nodup) :
    (((createTableIfNotExists db n).tables.map TableState.name)).Nodup := by
  unfold createTableIfNotExists
  split
  · exact h
  · next hn =>
      have hnot : n ∉ db.tables.map TableState.name := by
        intro hmem
        obtain ⟨t, ht, hname⟩ := List.mem_map.mp hmem
        exact hn (List.any_eq_true.mpr ⟨t, ht, by simp [hname]⟩)
      simp only [List.map_append, List.map_cons, List.map_nil]
      rw [List.nodup_append]
      refine ⟨h, List.nodup_singleton n, ?_⟩
      intro a ha hb
      simp only [List.mem_singleton] at hb
      subst hb
      exact hnot ha

theorem foldl_create_nodup (names : List String) :
    ∀ db : SchemaDB, (db.tables.map TableState.name).Nodup →
      (((names.foldl createTableIfNotExists db).tables.map TableState.name)).Nodup := by
  induction names with
  | nil => intro db h; exact h
  | cons m rest ih => intro db h; exact ih _ (createTable_nodup m h)

/-- C8: schema setup is idempotent — running `_ensure_schema` a second time
produces the identical schema, creates no duplicate tables, loses no
existing table (hence no rows), and repeating `initialize_db` against an
up-to-date store returns the same result with no change. -/
theorem ensure_schema_idempotent :
    (∀ db : SchemaDB, ensure_schema (ensure_schema db) = ensure_schema db) ∧
    (∀ (db : SchemaDB) (t : TableState), t ∈ db.tables → t ∈ (ensure_schema db).tables) ∧
    (∀ db : SchemaDB, (db.tables.map TableState.name).Nodup →
      ((ensure_schema db).tables.map TableState.name).Nodup) ∧
    (∀ (db db2 : EvezCore.EvezDB) (v : Int),
      EvezCore.initialize_db db = .ok (db2, v) →
      EvezCore.initialize_db db2 = .ok (db2, v)) := by
  refine ⟨?_, ?_, ?_, ?_⟩
  · intro db
    exact foldl_create_id _ _ (fun n hn => foldl_create_has _ db n hn)
  · intro db t ht
    exact foldl_create_mem _ db t ht
  · intro db h
    exact foldl_create_nodup _ db h
  · intro db db2 v h
    exact EvezCore.initialize_db_second h

/-- Witness for C8: a second `_ensure_schema` on a store holding an existing
table with a row is a no-op, and a second `initialize_db` on a
freshly-initialized store returns the same result. -/
theorem ensure_schema_idempotent_witness :
    ensure_schema (ensure_schema ⟨[⟨"legacy", ["r"]⟩]⟩) = ensure_schema ⟨[⟨"legacy", ["r"]⟩]⟩ ∧
    EvezCore.initialize_db ⟨true, [1], ["observations"], ["idx_observations_timestamp", "idx_observations_location"]⟩ =
      .ok (⟨true, [1], ["observations"], ["idx_observations_timestamp", "idx_observations_location"]⟩, 1) :=
  ⟨ensure_schema_idempotent.1 ⟨[⟨"legacy", ["r"]⟩]⟩,
   ensure_schema_idempotent.2.2.2 ⟨false, [], [], []⟩ _ _ rfl⟩

end HandshakeE
